import Mathlib

/-!
# MIPS single-step simulator (src/main.c): verification development

Shallow embedding of the decoder `decodeInstrucao` and of the executor
`executeInstrucao` of `src/main.c`, and of the data they work on.

Conventions of the embedding.

* A C `int` is a `CInt`: an integer together with the proof that it lies in
  `[-2^31, 2^31 - 1]`.  Every arithmetic operator of the source is the exact
  operation on `Int` followed by `CInt.wrap`, the reduction to the twos
  complement representative (what the machine addition, subtraction and
  multiplication produce).
* `int registradores[32]` and `int memoria[1024]` are total maps from
  `Fin 32` and `Fin 1024`.  An index expression of the source is turned into a
  position by `regIdx` and `memIdx`; for an index inside the array these are the
  identity.  The source gives no meaning to an index outside the array, and
  the statements below about instructions that use a register field carry the
  range `[0,31]` of the fields; a memory index is used only after
  `validaEndereco` has accepted it.
* `executeInstrucao` mutates `*proc` and returns a result code; the embedding
  returns the pair of the result code and the processor after the call.
  The pointer arguments are never null here, so the initial null test of the
  source has no counterpart.  The calls to `printf` have no effect on the state.
* `decodeInstrucao` fills `*inst` and returns a result code; the embedding takes the
  contents of `*inst` before the call and returns the pair of the result code and the
  contents after it.  C strings are lists of characters.  The result is `none` when
  the first `sscanf` of the call would write past the end of `operacao` or of
  `operandos`, for which the source has no defined behaviour.
-/

namespace Mips

/-! ## Constants of the source -/

/-- Size of the memory, in words (`TAMANHO_MEMORIA`). -/
def TAMANHO_MEMORIA : Int := 1024
/-- Number of registers (`NUM_REGISTRADORES`). -/
def NUM_REGISTRADORES : Int := 32
/-- Bytes per instruction (`TAMANHO_INSTRUCAO`). -/
def TAMANHO_INSTRUCAO : Int := 4

def INSTRUCAO_R : Int := 0
def INSTRUCAO_I : Int := 1
def INSTRUCAO_J : Int := 2

def OP_R : Int := 0x00
def OP_ADDI : Int := 0x08
def OP_LW : Int := 0x23
def OP_SW : Int := 0x2B
def OP_BEQ : Int := 0x04
def OP_J : Int := 0x02
def OP_JAL : Int := 0x03

def FUNC_ADD : Int := 0x20
def FUNC_SUB : Int := 0x22
def FUNC_AND : Int := 0x24
def FUNC_OR : Int := 0x25
def FUNC_SLT : Int := 0x2A
def FUNC_JR : Int := 0x08

def SUCESSO : Int := 0
def ERRO_PARAMETRO : Int := -1
def ERRO_REGISTRADOR : Int := -2
def ERRO_MEMORIA : Int := -3
def ERRO_OVERFLOW : Int := -4

/-! ## The C type `int` -/

/-- A value of the C type `int` (32 bits, twos complement). -/
structure CInt where
  val : Int
  lo : -2147483648 ≤ val
  hi : val ≤ 2147483647
deriving DecidableEq

namespace CInt

/-- Reduction of an exact integer to the 32-bit twos complement value with the
same residue modulo `2^32`. -/
def wrap (x : Int) : CInt :=
  ⟨(x + 2147483648) % 4294967296 - 2147483648, by omega, by omega⟩

instance : OfNat CInt n := ⟨wrap (n : Int)⟩

instance : Inhabited CInt := ⟨wrap 0⟩

/-- The constant `INT_MAX` of `limits.h`. -/
def INT_MAX : CInt := wrap 2147483647
/-- The constant `INT_MIN` of `limits.h`. -/
def INT_MIN : CInt := wrap (-2147483648)

/-- The operator `+` on `int`. -/
def add (a b : CInt) : CInt := wrap (a.val + b.val)
/-- The operator `-` on `int`. -/
def sub (a b : CInt) : CInt := wrap (a.val - b.val)
/-- The operator `*` on `int`. -/
def mul (a b : CInt) : CInt := wrap (a.val * b.val)
/-- The operator `&` on `int`: bitwise conjunction of the twos complement
representations (`wrap` is the identity on the result). -/
def land (a b : CInt) : CInt := wrap (Int.land a.val b.val)
/-- The operator `|` on `int`: bitwise disjunction of the twos complement
representations (`wrap` is the identity on the result). -/
def lor (a b : CInt) : CInt := wrap (Int.lor a.val b.val)

end CInt

/-! ## Data model -/

/-- The struct `Instrucao` of the source. -/
structure Instrucao where
  tipo : CInt
  opcode : CInt
  rs : CInt
  rt : CInt
  rd : CInt
  shamt : CInt
  funcao : CInt
  imediato : CInt
  endereco : CInt
deriving DecidableEq

/-- The struct `Processador` of the source. -/
structure Processador where
  registradores : Fin 32 → CInt
  pc : CInt
  memoria : Fin 1024 → CInt

/-- Position in `registradores` of the index expression `r`. -/
def regIdx (r : CInt) : Fin 32 := ⟨r.val.toNat % 32, Nat.mod_lt _ (by decide)⟩

/-- Position in `memoria` of the index expression `e`. -/
def memIdx (e : CInt) : Fin 1024 := ⟨e.val.toNat % 1024, Nat.mod_lt _ (by decide)⟩

namespace Processador

/-- The expression `proc->registradores[r]`. -/
def reg (proc : Processador) (r : CInt) : CInt := proc.registradores (regIdx r)

/-- The assignment `proc->registradores[r] = v`. -/
def setReg (proc : Processador) (r : CInt) (v : CInt) : Processador :=
  { proc with registradores := Function.update proc.registradores (regIdx r) v }

/-- The expression `proc->memoria[e]`. -/
def mem (proc : Processador) (e : CInt) : CInt := proc.memoria (memIdx e)

/-- The assignment `proc->memoria[e] = v`. -/
def setMem (proc : Processador) (e : CInt) (v : CInt) : Processador :=
  { proc with memoria := Function.update proc.memoria (memIdx e) v }

/-- The assignment `proc->pc = v`. -/
def setPc (proc : Processador) (v : CInt) : Processador :=
  { proc with pc := v }

/-- The statement `proc->pc += TAMANHO_INSTRUCAO`. -/
def avancaPc (proc : Processador) : Processador :=
  proc.setPc (CInt.add proc.pc (CInt.wrap TAMANHO_INSTRUCAO))

end Processador

/-- The function `initProcessador`: registers, memory and pc all zero. -/
def initProcessador : Processador :=
  { registradores := fun _ => 0, pc := 0, memoria := fun _ => 0 }

/-- The function `validaRegistrador`. -/
def validaRegistrador (reg : CInt) : Int :=
  if reg.val ≥ 0 ∧ reg.val < NUM_REGISTRADORES then SUCESSO else ERRO_REGISTRADOR

/-- The function `validaEndereco`. -/
def validaEndereco (endereco : CInt) : Int :=
  if endereco.val ≥ 0 ∧ endereco.val < TAMANHO_MEMORIA then SUCESSO else ERRO_MEMORIA

/-! ## The executor -/

/-- The overflow test of `FUNC_ADD` and of `OP_ADDI`:
`(a > 0 && b > INT_MAX - a) || (a < 0 && b < INT_MIN - a)`. -/
def overflowSoma (a b : CInt) : Bool :=
  decide ((a.val > 0 ∧ b.val > (CInt.sub CInt.INT_MAX a).val) ∨
          (a.val < 0 ∧ b.val < (CInt.sub CInt.INT_MIN a).val))

/-- The overflow test of `FUNC_SUB`:
`(a > 0 && b < INT_MIN + a) || (a < 0 && b > INT_MAX + a)`. -/
def overflowSub (a b : CInt) : Bool :=
  decide ((a.val > 0 ∧ b.val < (CInt.add CInt.INT_MIN a).val) ∨
          (a.val < 0 ∧ b.val > (CInt.add CInt.INT_MAX a).val))

/-- The test `novo_pc < 0 || novo_pc >= TAMANHO_MEMORIA * 4` guarding every
assignment of a computed target to pc. -/
def pcInvalido (novo_pc : CInt) : Bool :=
  decide (novo_pc.val < 0 ∨ novo_pc.val ≥ TAMANHO_MEMORIA * 4)

/-- The tail of `executeInstrucao` reached by every `break` of the outer switch:
`proc->registradores[0] = 0; return SUCESSO;`. -/
def fimSucesso (proc : Processador) : Int × Processador :=
  (SUCESSO, proc.setReg 0 0)

/-- The case `INSTRUCAO_R` of `executeInstrucao`. -/
def executeTipoR (proc : Processador) (inst : Instrucao) : Int × Processador :=
  if inst.funcao.val = FUNC_ADD then
    if overflowSoma (proc.reg inst.rs) (proc.reg inst.rt) then (ERRO_OVERFLOW, proc)
    else
      fimSucesso
        (proc.setReg inst.rd (CInt.add (proc.reg inst.rs) (proc.reg inst.rt))).avancaPc
  else if inst.funcao.val = FUNC_SUB then
    if overflowSub (proc.reg inst.rs) (proc.reg inst.rt) then (ERRO_OVERFLOW, proc)
    else
      fimSucesso
        (proc.setReg inst.rd (CInt.sub (proc.reg inst.rs) (proc.reg inst.rt))).avancaPc
  else if inst.funcao.val = FUNC_AND then
    fimSucesso
      (proc.setReg inst.rd (CInt.land (proc.reg inst.rs) (proc.reg inst.rt))).avancaPc
  else if inst.funcao.val = FUNC_OR then
    fimSucesso
      (proc.setReg inst.rd (CInt.lor (proc.reg inst.rs) (proc.reg inst.rt))).avancaPc
  else if inst.funcao.val = FUNC_SLT then
    fimSucesso
      (proc.setReg inst.rd
        (if (proc.reg inst.rs).val < (proc.reg inst.rt).val then 1 else 0)).avancaPc
  else if inst.funcao.val = FUNC_JR then
    let novo_pc := proc.reg inst.rs
    if pcInvalido novo_pc then (ERRO_MEMORIA, proc)
    else (SUCESSO, proc.setPc novo_pc)
  else
    fimSucesso proc.avancaPc

/-- The case `INSTRUCAO_I` of `executeInstrucao`. -/
def executeTipoI (proc : Processador) (inst : Instrucao) : Int × Processador :=
  if inst.opcode.val = OP_ADDI then
    if overflowSoma (proc.reg inst.rs) inst.imediato then (ERRO_OVERFLOW, proc)
    else
      fimSucesso
        (proc.setReg inst.rt (CInt.add (proc.reg inst.rs) inst.imediato)).avancaPc
  else if inst.opcode.val = OP_LW then
    let endereco := CInt.add (proc.reg inst.rs) inst.imediato
    if validaEndereco endereco ≠ SUCESSO then (ERRO_MEMORIA, proc)
    else fimSucesso (proc.setReg inst.rt (proc.mem endereco)).avancaPc
  else if inst.opcode.val = OP_SW then
    let endereco := CInt.add (proc.reg inst.rs) inst.imediato
    if validaEndereco endereco ≠ SUCESSO then (ERRO_MEMORIA, proc)
    else fimSucesso (proc.setMem endereco (proc.reg inst.rt)).avancaPc
  else if inst.opcode.val = OP_BEQ then
    if (proc.reg inst.rs).val = (proc.reg inst.rt).val then
      let novo_pc := CInt.add proc.pc (CInt.mul inst.imediato (CInt.wrap TAMANHO_INSTRUCAO))
      if pcInvalido novo_pc then (ERRO_MEMORIA, proc)
      else fimSucesso (proc.setPc novo_pc)
    else fimSucesso proc.avancaPc
  else
    fimSucesso proc

/-- The case `INSTRUCAO_J` of `executeInstrucao`. -/
def executeTipoJ (proc : Processador) (inst : Instrucao) : Int × Processador :=
  let novo_pc := CInt.mul inst.endereco (CInt.wrap TAMANHO_INSTRUCAO)
  if pcInvalido novo_pc then (ERRO_MEMORIA, proc)
  else if inst.opcode.val = OP_J then
    fimSucesso (proc.setPc novo_pc)
  else if inst.opcode.val = OP_JAL then
    fimSucesso
      ((proc.setReg 31 (CInt.add proc.pc (CInt.wrap TAMANHO_INSTRUCAO))).setPc novo_pc)
  else
    fimSucesso proc

/-- The function `executeInstrucao`: the result code and the processor after the
call.  The first statement forces register 0 to zero; the switch on
`inst->tipo` has no default, so any other tag falls to the tail. -/
def executeInstrucao (proc : Processador) (inst : Instrucao) : Int × Processador :=
  let proc := proc.setReg 0 0
  if inst.tipo.val = INSTRUCAO_R then executeTipoR proc inst
  else if inst.tipo.val = INSTRUCAO_I then executeTipoI proc inst
  else if inst.tipo.val = INSTRUCAO_J then executeTipoJ proc inst
  else fimSucesso proc

/-! ## Auxiliary definitions used to state the results -/

/-- Register fields of an instruction all inside the register file. -/
def camposValidos (inst : Instrucao) : Prop :=
  (0 ≤ inst.rs.val ∧ inst.rs.val ≤ 31) ∧ (0 ≤ inst.rt.val ∧ inst.rt.val ≤ 31) ∧
  (0 ≤ inst.rd.val ∧ inst.rd.val ≤ 31)

instance (inst : Instrucao) : Decidable (camposValidos inst) := by
  unfold camposValidos; infer_instance

/-- The checked addition shared by the branches `FUNC_ADD` and `OP_ADDI` of
`executeInstrucao`, which differ only in the operand `b` and the destination `d`:
overflow test, then the write of the sum, the pc advance and the tail. -/
def somaVerificada (proc : Processador) (a b d : CInt) : Int × Processador :=
  if overflowSoma a b then (ERRO_OVERFLOW, proc)
  else fimSucesso (proc.setReg d (CInt.add a b)).avancaPc

/-! ## Concrete states and instructions

Inputs on which the statements below are evaluated. -/

/-- An instruction with every field zero except those given. -/
def mkInst (tipo opcode rs rt rd funcao imediato endereco : CInt) : Instrucao :=
  { tipo := tipo, opcode := opcode, rs := rs, rt := rt, rd := rd, shamt := 0,
    funcao := funcao, imediato := imediato, endereco := endereco }

/-- A processor whose 32 registers all hold 7 (register 0 included), pc 8, and
whose memory is zero. -/
def procSete : Processador :=
  { registradores := fun _ => 7, pc := 8, memoria := fun _ => 0 }

/-- The instruction `add $0,$2,$3`. -/
def instAddZero : Instrucao := mkInst 0 0 2 3 0 0x20 0 0

/-- The instruction `lw $1,-1($0)`. -/
def instLwMenosUm : Instrucao := mkInst 1 0x23 0 1 0 0 (CInt.wrap (-1)) 0

/-- A processor with `registers[2] = 5`, `registers[3] = 7`, everything else zero. -/
def procCincoSete : Processador :=
  { registradores := fun r => if r = 2 then 5 else if r = 3 then 7 else 0,
    pc := 0, memoria := fun _ => 0 }

/-- The instruction `add $1,$2,$3`. -/
def instAdd123 : Instrucao := mkInst 0 0 2 3 1 0x20 0 0

/-- A processor with `registers[1] = 1`, `registers[2] = -2147483647`,
`registers[4] = INT_MIN`, `registers[5] = -1`, `registers[6] = INT_MAX`, everything
else zero. -/
def procSub : Processador :=
  { registradores := fun r =>
      if r = 1 then 1 else if r = 2 then CInt.wrap (-2147483647)
      else if r = 4 then CInt.INT_MIN else if r = 5 then CInt.wrap (-1)
      else if r = 6 then CInt.INT_MAX else 0,
    pc := 0, memoria := fun _ => 0 }

/-- The instruction `sub $7,$1,$2`. -/
def instSub712 : Instrucao := mkInst 0 0 1 2 7 0x22 0 0

/-- The instruction `sub $7,$0,$4`. -/
def instSub704 : Instrucao := mkInst 0 0 0 4 7 0x22 0 0

/-- The instruction `sub $7,$5,$6`. -/
def instSub756 : Instrucao := mkInst 0 0 5 6 7 0x22 0 0

/-- A processor with pc 4092, `registers[1] = 2`, everything else zero. -/
def procFim : Processador :=
  { registradores := fun r => if r = 1 then 2 else 0, pc := 4092, memoria := fun _ => 0 }

/-- The instruction `and $1,$2,$3`. -/
def instAnd123 : Instrucao := mkInst 0 0 2 3 1 0x24 0 0

/-- The instruction `jr $1`. -/
def instJr1 : Instrucao := mkInst 0 0 1 0 0 0x08 0 0

/-- The instruction `j 5`. -/
def instJ5 : Instrucao := mkInst 2 0x02 0 0 0 0 0 5

/-- A processor with `registers[1] = INT_MIN`, `memory[0] = 42`, pc 0, everything
else zero. -/
def procMin : Processador :=
  { registradores := fun r => if r = 1 then CInt.INT_MIN else 0, pc := 0,
    memoria := fun e => if e = 0 then 42 else 0 }

/-- The instruction `lw $2,-2147483648($1)`. -/
def instLwMin : Instrucao := mkInst 1 0x23 1 2 0 0 CInt.INT_MIN 0

/-- A processor with `registers[1] = 99`, everything else zero. -/
def procNoventaENove : Processador :=
  { registradores := fun r => if r = 1 then 99 else 0, pc := 0, memoria := fun _ => 0 }

/-- The instruction `sw $1,4($0)`. -/
def instSw1 : Instrucao := mkInst 1 0x2B 0 1 0 0 4 0

/-- The instruction `lw $2,4($0)`. -/
def instLw2 : Instrucao := mkInst 1 0x23 0 2 0 0 4 0

/-- The instruction `beq $1,$2,-1` (rt = 1, rs = 2). -/
def instBeqMenosUm : Instrucao := mkInst 1 0x04 2 1 0 0 (CInt.wrap (-1)) 0

/-- The instruction `j 1073741824`. -/
def instJGrande : Instrucao := mkInst 2 0x02 0 0 0 0 0 1073741824

/-- The instruction `j 1024`. -/
def instJ1024 : Instrucao := mkInst 2 0x02 0 0 0 0 0 1024

/-! ## The decoder

C strings are lists of characters (the characters before the terminating zero).
The library functions `sscanf` and `strtok` are modelled for the formats and the
delimiters the source uses.  A call of `sscanf` that would write past the end of its
target array has no defined result; `decodeInstrucao` returns `none` in that case. -/

/-- Size of the line buffer (`MAX_INSTRUCAO_LEN`). -/
def MAX_INSTRUCAO_LEN : Nat := 100

/-- The function `isspace` of the C locale. -/
def isspace (c : Char) : Bool :=
  c == ' ' || c == '\t' || c == '\n' || c == '\x0b' || c == '\x0c' || c == '\r'

/-- Value of a run of decimal digits, most significant first. -/
def valorDigitos (ds : List Char) : Nat :=
  ds.foldl (fun acc c => 10 * acc + (c.toNat - 48)) 0

/-- The value stored by `%d` for the exact value `v` of the numeral.  When `v` is an
`int` it is `v`.  Otherwise the C standard leaves the stored value undefined; the
definition follows the GNU C library, which saturates to `long` and converts to `int`. -/
def intDeNumeral (v : Int) : CInt :=
  CInt.wrap (max (-9223372036854775808) (min v 9223372036854775807))

/-- Optional sign of a numeral: whether it is negative, and the text after the sign. -/
def lerSinal (s : List Char) : Bool × List Char :=
  match s with
  | [] => (false, [])
  | c :: r => if c = '-' then (true, r) else if c = '+' then (false, r) else (false, c :: r)

/-- The directive `%d` of `sscanf` at the start of `s`: white space is skipped, then an
optional sign and a non-empty run of digits are read.  The result is the value stored,
or `none` when no numeral is there (the directive fails). -/
def scanInt (s : List Char) : Option CInt :=
  let sinal := lerSinal (s.dropWhile isspace)
  let ds := sinal.2.takeWhile Char.isDigit
  if ds = [] then none
  else some (intDeNumeral (if sinal.1 then -(valorDigitos ds : Int) else (valorDigitos ds : Int)))

/-- The call `sscanf(s, "$%d", &x) == 1`: the value stored in `x`, or `none` when the
call does not return 1. -/
def scanCifraoInt (s : List Char) : Option CInt :=
  match s with
  | [] => none
  | c :: r => if c = '$' then scanInt r else none

/-- The call `sscanf(s, " $%d", &x) == 1`: as `scanCifraoInt` after skipping white space. -/
def scanEspacoCifraoInt (s : List Char) : Option CInt :=
  scanCifraoInt (s.dropWhile isspace)

/-- One call of `strtok` with the one-character delimiter string `delim` on the text `s`
that remains to be scanned: the token found (`none` for a null pointer) and the text
that remains for the next call.  Leading delimiters are skipped; the token runs to the
next delimiter, which is consumed, or to the end of the text. -/
def strtok (s : List Char) (delim : Char) : Option (List Char) × List Char :=
  let s1 := s.dropWhile (fun c => c == delim)
  if s1 = [] then (none, [])
  else (some (s1.takeWhile (fun c => !(c == delim))),
        (s1.dropWhile (fun c => !(c == delim))).drop 1)

/-- Outcome of reading one register operand: the result code and the value written to
the field, if any. -/
structure LeituraReg where
  codigo : Int
  valor : Option CInt

/-- The statement
`if (token && sscanf(token, fmt, &x) == 1) { if (validaRegistrador(x) != SUCESSO) return
ERRO_REGISTRADOR; } else return ERRO_PARAMETRO;`
where `scan` is the `sscanf` call: the code is `SUCESSO` when execution continues. -/
def lerRegistrador (scan : List Char → Option CInt) (token : Option (List Char)) :
    LeituraReg :=
  match token.bind scan with
  | none => ⟨ERRO_PARAMETRO, none⟩
  | some x =>
    if validaRegistrador x ≠ SUCESSO then ⟨ERRO_REGISTRADOR, some x⟩ else ⟨SUCESSO, some x⟩

/-- The statement
`if (token && sscanf(token, " %d", &inst->imediato) != 1) return ERRO_PARAMETRO;`:
`none` when it returns, otherwise the value of `inst->imediato` afterwards. -/
def lerImediato (token : Option (List Char)) (imediato : CInt) : Option CInt :=
  match token with
  | none => some imediato
  | some t =>
    match scanInt t with
    | none => none
    | some x => some x

/-- The function `decodeTipoR`. -/
def decodeTipoR (operandos : List Char) (inst : Instrucao) : Int × Instrucao :=
  let operandos_copia := operandos.take (MAX_INSTRUCAO_LEN - 1)
  let t1 := strtok operandos_copia ','
  let r1 := lerRegistrador scanEspacoCifraoInt t1.1
  let inst := { inst with rd := r1.valor.getD inst.rd }
  if r1.codigo ≠ SUCESSO then (r1.codigo, inst) else
  let t2 := strtok t1.2 ','
  let r2 := lerRegistrador scanEspacoCifraoInt t2.1
  let inst := { inst with rs := r2.valor.getD inst.rs }
  if r2.codigo ≠ SUCESSO then (r2.codigo, inst) else
  let t3 := strtok t2.2 ','
  let r3 := lerRegistrador scanEspacoCifraoInt t3.1
  let inst := { inst with rt := r3.valor.getD inst.rt }
  if r3.codigo ≠ SUCESSO then (r3.codigo, inst) else
  (SUCESSO, inst)

/-- The function `decodeTipoI`. -/
def decodeTipoI (operandos : List Char) (inst : Instrucao) : Int × Instrucao :=
  let operandos_copia := operandos.take (MAX_INSTRUCAO_LEN - 1)
  let t1 := strtok operandos_copia ','
  let r1 := lerRegistrador scanEspacoCifraoInt t1.1
  let inst := { inst with rt := r1.valor.getD inst.rt }
  if r1.codigo ≠ SUCESSO then (r1.codigo, inst) else
  let t2 := strtok t1.2 ','
  let r2 := lerRegistrador scanEspacoCifraoInt t2.1
  let inst := { inst with rs := r2.valor.getD inst.rs }
  if r2.codigo ≠ SUCESSO then (r2.codigo, inst) else
  let t3 := strtok t2.2 ','
  match lerImediato t3.1 inst.imediato with
  | none => (ERRO_PARAMETRO, inst)
  | some x => (SUCESSO, { inst with imediato := x })

/-- The function `decodeMemoria`. -/
def decodeMemoria (operandos : List Char) (inst : Instrucao) : Int × Instrucao :=
  let operandos_copia := operandos.take (MAX_INSTRUCAO_LEN - 1)
  let t1 := strtok operandos_copia ','
  let r1 := lerRegistrador scanEspacoCifraoInt t1.1
  let inst := { inst with rt := r1.valor.getD inst.rt }
  if r1.codigo ≠ SUCESSO then (r1.codigo, inst) else
  let t2 := strtok t1.2 '('
  match lerImediato t2.1 inst.imediato with
  | none => (ERRO_PARAMETRO, inst)
  | some x =>
    let inst := { inst with imediato := x }
    let t3 := strtok t2.2 ')'
    let r3 := lerRegistrador scanCifraoInt t3.1
    let inst := { inst with rs := r3.valor.getD inst.rs }
    if r3.codigo ≠ SUCESSO then (r3.codigo, inst) else
    (SUCESSO, inst)

/-- Result of `sscanf(assembly, "%s %[^\n]", operacao, operandos)`: the value returned
and the contents of the two arrays (empty when not written). -/
structure LeituraLinha where
  retorno : Int
  operacao : List Char
  operandos : List Char

/-- The call `sscanf(assembly, "%s %[^\n]", operacao, operandos)` with
`char operacao[10]` and `char operandos[MAX_INSTRUCAO_LEN]`.  `%s` skips white space
and reads the run of characters up to the next white space; the blank of the format
skips white space; `%[^\n]` reads the non-empty run of characters up to the next line
feed.  The result is `none` when a run does not fit its array with the terminating
zero: at most 9 characters for `operacao`, at most 99 for `operandos`. -/
def sscanfLinha (assembly : List Char) : Option LeituraLinha :=
  let s1 := assembly.dropWhile isspace
  let operacao := s1.takeWhile (fun c => !isspace c)
  let s2 := (s1.dropWhile (fun c => !isspace c)).dropWhile isspace
  let operandos := s2.takeWhile (fun c => !(c == '\n'))
  if operacao = [] then some ⟨-1, [], []⟩
  else if operacao.length ≥ 10 then none
  else if operandos = [] then some ⟨1, operacao, []⟩
  else if operandos.length ≥ MAX_INSTRUCAO_LEN then none
  else some ⟨2, operacao, operandos⟩

/-- The mnemonics compared with `strcmp`. -/
def M_ADD : List Char := ['a', 'd', 'd']
def M_SUB : List Char := ['s', 'u', 'b']
def M_AND : List Char := ['a', 'n', 'd']
def M_OR : List Char := ['o', 'r']
def M_SLT : List Char := ['s', 'l', 't']
def M_JR : List Char := ['j', 'r']
def M_ADDI : List Char := ['a', 'd', 'd', 'i']
def M_BEQ : List Char := ['b', 'e', 'q']
def M_LW : List Char := ['l', 'w']
def M_SW : List Char := ['s', 'w']
def M_J : List Char := ['j']
def M_JAL : List Char := ['j', 'a', 'l']

/-- The instruction after `memset(inst, 0, sizeof(Instrucao))`. -/
def instZero : Instrucao :=
  { tipo := 0, opcode := 0, rs := 0, rt := 0, rd := 0, shamt := 0, funcao := 0,
    imediato := 0, endereco := 0 }

/-- The part of `decodeInstrucao` after the first `sscanf` has returned 2: the
`memset` and the dispatch on the mnemonic. -/
def decodeOperacao (operacao operandos : List Char) : Int × Instrucao :=
  let inst := instZero
  if operacao = M_ADD ∨ operacao = M_SUB ∨ operacao = M_AND ∨ operacao = M_OR ∨
      operacao = M_SLT ∨ operacao = M_JR then
    let inst := { inst with tipo := CInt.wrap INSTRUCAO_R, opcode := CInt.wrap OP_R }
    let inst := { inst with funcao :=
      if operacao = M_ADD then CInt.wrap FUNC_ADD
      else if operacao = M_SUB then CInt.wrap FUNC_SUB
      else if operacao = M_AND then CInt.wrap FUNC_AND
      else if operacao = M_OR then CInt.wrap FUNC_OR
      else if operacao = M_SLT then CInt.wrap FUNC_SLT
      else if operacao = M_JR then CInt.wrap FUNC_JR
      else inst.funcao }
    if inst.funcao.val = FUNC_JR then
      match scanEspacoCifraoInt operandos with
      | none => (ERRO_PARAMETRO, inst)
      | some x =>
        let inst := { inst with rs := x }
        if validaRegistrador inst.rs ≠ SUCESSO then (ERRO_REGISTRADOR, inst)
        else (SUCESSO, inst)
    else decodeTipoR operandos inst
  else if operacao = M_ADDI ∨ operacao = M_BEQ then
    let inst := { inst with
      tipo := CInt.wrap INSTRUCAO_I
      opcode := (if operacao = M_ADDI then CInt.wrap OP_ADDI else CInt.wrap OP_BEQ) }
    decodeTipoI operandos inst
  else if operacao = M_LW ∨ operacao = M_SW then
    let inst := { inst with
      tipo := CInt.wrap INSTRUCAO_I
      opcode := (if operacao = M_LW then CInt.wrap OP_LW else CInt.wrap OP_SW) }
    decodeMemoria operandos inst
  else if operacao = M_J ∨ operacao = M_JAL then
    let inst := { inst with
      tipo := CInt.wrap INSTRUCAO_J
      opcode := (if operacao = M_J then CInt.wrap OP_J else CInt.wrap OP_JAL) }
    match scanInt operandos with
    | none => (ERRO_PARAMETRO, inst)
    | some x => (SUCESSO, { inst with endereco := x })
  else (ERRO_PARAMETRO, inst)

/-- The function `decodeInstrucao`: the result code and the contents of `*inst` after
the call, `inst` being its contents before; `none` when the first `sscanf` overruns one
of its arrays. -/
def decodeInstrucao (assembly : List Char) (inst : Instrucao) : Option (Int × Instrucao) :=
  match sscanfLinha assembly with
  | none => none
  | some l =>
    if l.retorno ≠ 2 then some (ERRO_PARAMETRO, inst)
    else some (decodeOperacao l.operacao l.operandos)

/-- The instruction `jal 10`. -/
def instJal10 : Instrucao := mkInst 2 0x03 0 0 0 0 0 10

/-- A processor with `registers[1] = 64`, pc 8, everything else zero. -/
def procSessentaEQuatro : Processador :=
  { registradores := fun r => if r = 1 then 64 else 0, pc := 8, memoria := fun _ => 0 }

/-- A processor with `registers[2] = INT_MAX`, pc 8, everything else zero. -/
def procIntMax : Processador :=
  { registradores := fun r => if r = 2 then CInt.INT_MAX else 0, pc := 8,
    memoria := fun _ => 0 }

/-- The instruction `addi $1,$2,1`. -/
def instAddi121 : Instrucao := mkInst 1 0x08 2 1 0 0 1 0

/-! ## Canonical texts

The texts on which the statements about the decoder are made. -/

/-- Decimal text of an integer: a minus sign for a negative one, then the digits
without leading zeros. -/
def decimal (n : Int) : List Char :=
  if n < 0 then '-' :: Nat.toDigits 10 n.natAbs else Nat.toDigits 10 n.natAbs

/-- Text of a register operand: `$` followed by the decimal text of the number. -/
def campoReg (n : Int) : List Char := '$' :: decimal n

/-- Operand text `$a,$b,$c` followed by `suf`. -/
def textoR (a b c : Int) (suf : List Char) : List Char :=
  campoReg a ++ (',' :: (campoReg b ++ (',' :: (campoReg c ++ suf))))

/-- Operand text `$a,$b,n` followed by `suf`. -/
def textoI (a b n : Int) (suf : List Char) : List Char :=
  campoReg a ++ (',' :: (campoReg b ++ (',' :: (decimal n ++ suf))))

/-- Operand text `$a,n($b` followed by `suf`; the canonical form has `suf = ")"`. -/
def textoMem (a n b : Int) (suf : List Char) : List Char :=
  campoReg a ++ (',' :: (decimal n ++ ('(' :: (campoReg b ++ suf))))

/-- The line made of the mnemonic `m`, one blank and the operand text. -/
def linha (m operandos : List Char) : List Char := m ++ (' ' :: operandos)

/-- The three-register mnemonics with their function codes. -/
def mnemonicosR : List (List Char × Int) :=
  [(M_ADD, FUNC_ADD), (M_SUB, FUNC_SUB), (M_AND, FUNC_AND), (M_OR, FUNC_OR),
   (M_SLT, FUNC_SLT)]

/-- The mnemonics of `decodeTipoI` with their opcodes. -/
def mnemonicosI : List (List Char × Int) := [(M_ADDI, OP_ADDI), (M_BEQ, OP_BEQ)]

/-- The mnemonics of `decodeMemoria` with their opcodes. -/
def mnemonicosMem : List (List Char × Int) := [(M_LW, OP_LW), (M_SW, OP_SW)]

/-- The jump mnemonics with their opcodes. -/
def mnemonicosJ : List (List Char × Int) := [(M_J, OP_J), (M_JAL, OP_JAL)]

/-- The twelve mnemonics. -/
def mnemonicos : List (List Char) :=
  [M_ADD, M_SUB, M_AND, M_OR, M_SLT, M_JR, M_ADDI, M_BEQ, M_LW, M_SW, M_J, M_JAL]

/-- The instruction handed to `decodeTipoR` for function code `f`, and to the `jr`
branch: zeroed, then `tipo`, `opcode` and `funcao` set. -/
def instR (f : Int) : Instrucao :=
  { instZero with tipo := CInt.wrap INSTRUCAO_R, opcode := CInt.wrap OP_R,
                  funcao := CInt.wrap f }

/-- The instruction handed to `decodeTipoI` and `decodeMemoria` for opcode `op`. -/
def instI (op : Int) : Instrucao :=
  { instZero with tipo := CInt.wrap INSTRUCAO_I, opcode := CInt.wrap op }

/-- The instruction of the jump branch for opcode `op`, before the address is read. -/
def instJ (op : Int) : Instrucao :=
  { instZero with tipo := CInt.wrap INSTRUCAO_J, opcode := CInt.wrap op }

/-- The first white-space-delimited token of a line. -/
def primeiroToken (assembly : List Char) : List Char :=
  (assembly.dropWhile isspace).takeWhile (fun c => !isspace c)

/-- The operand part of a line: what follows the first token and the white space after
it, up to the end of the line. -/
def parteOperandos (assembly : List Char) : List Char :=
  (((assembly.dropWhile isspace).dropWhile (fun c => !isspace c)).dropWhile
    isspace).takeWhile (fun c => !(c == '\n'))

/-- The register fields a format does not use hold zero: `rt` and `rd` for `jr`, `rd`
for the I format, all three for the J format; and the format tag is one of the three. -/
def camposNaoUsadosZero (inst : Instrucao) : Prop :=
  (inst.tipo.val = INSTRUCAO_R ∨ inst.tipo.val = INSTRUCAO_I ∨ inst.tipo.val = INSTRUCAO_J) ∧
  (inst.tipo.val = INSTRUCAO_R → inst.funcao.val = FUNC_JR →
    inst.rt.val = 0 ∧ inst.rd.val = 0) ∧
  (inst.tipo.val = INSTRUCAO_I → inst.rd.val = 0) ∧
  (inst.tipo.val = INSTRUCAO_J → inst.rs.val = 0 ∧ inst.rt.val = 0 ∧ inst.rd.val = 0)

/-- The line `add $1,$2,$3`. -/
def linhaAdd123 : List Char := "add $1,$2,$3".toList

/-- An operand text that the first `sscanf` returns unchanged: it starts with a
character that is not white space, holds no line feed and fits the array `operandos`. -/
def operandosBemFormados (operandos : List Char) : Prop :=
  (∃ c r, operandos = c :: r ∧ isspace c = false) ∧ (∀ c ∈ operandos, c ≠ '\n') ∧
  operandos.length ≤ 99

/-- A first token that the first `sscanf` returns unchanged: not empty, without white
space, and fitting the array `operacao`. -/
def tokenBemFormado (m : List Char) : Prop :=
  m ≠ [] ∧ (∀ c ∈ m, isspace c = false) ∧ m.length ≤ 9

/-- The line `add $1,$40,$3`. -/
def linhaAddReg40 : List Char := "add $1,$40,$3".toList

/-- The line `abcdefghijabcdefghijabcdefghij $1,$2,$3`, whose first token has thirty
characters. -/
def linhaTokenLongo : List Char := "abcdefghijabcdefghijabcdefghij $1,$2,$3".toList

/-- The line `addx $1,$2,$3`. -/
def linhaAddx : List Char := "addx $1,$2,$3".toList

/-- The line `lw $1,4($2`, without the closing parenthesis. -/
def linhaLwSemFecho : List Char := "lw $1,4($2".toList

/-- The line `lw $1,($2)`. -/
def linhaLwSemInteiro : List Char := "lw $1,($2)".toList

/-- The line `lw $35($2)`: `lw $3,5($2)` without its comma. -/
def linhaLwSemVirgula35 : List Char := "lw $35($2)".toList

/-- The operand text `$35($2)` of the line `lw $35($2)`. -/
def operandosSemVirgula35 : List Char := "$35($2)".toList

/-- The line `lw $1 4($2)`: `lw $1,4($2)` with a blank for the comma. -/
def linhaLwSemVirgula : List Char := "lw $1 4($2)".toList

/-! ## Basic facts about the embedding -/

theorem regIdx_zero : regIdx 0 = 0 := by decide

theorem setReg_zero_reg0 (proc : Processador) : (proc.setReg 0 0).registradores 0 = 0 := by
  simp [Processador.setReg, regIdx_zero]

theorem fimSucesso_reg0 (proc : Processador) : (fimSucesso proc).2.registradores 0 = 0 := by
  simp [fimSucesso, Processador.setReg, regIdx_zero]

theorem fimSucesso_codigo (proc : Processador) : (fimSucesso proc).1 = SUCESSO := rfl

/-! ## C1: register 0 -/

theorem executeTipoR_reg0 (proc : Processador) (inst : Instrucao)
    (h : proc.registradores 0 = 0) :
    (executeTipoR proc inst).2.registradores 0 = 0 := by
  dsimp only [executeTipoR]
  split_ifs <;> simp [fimSucesso_reg0, h, Processador.setPc]

theorem executeTipoI_reg0 (proc : Processador) (inst : Instrucao)
    (h : proc.registradores 0 = 0) :
    (executeTipoI proc inst).2.registradores 0 = 0 := by
  dsimp only [executeTipoI]
  split_ifs <;> simp [fimSucesso_reg0, h, Processador.setPc]

theorem executeTipoJ_reg0 (proc : Processador) (inst : Instrucao)
    (h : proc.registradores 0 = 0) :
    (executeTipoJ proc inst).2.registradores 0 = 0 := by
  dsimp only [executeTipoJ]
  split_ifs <;> simp [fimSucesso_reg0, h, Processador.setPc]

theorem executeTipoR_codigo (proc : Processador) (inst : Instrucao) :
    (executeTipoR proc inst).1 = SUCESSO ∨ (executeTipoR proc inst).1 = ERRO_OVERFLOW ∨
      (executeTipoR proc inst).1 = ERRO_MEMORIA := by
  dsimp only [executeTipoR]
  split_ifs <;> simp [fimSucesso_codigo]

theorem executeTipoI_codigo (proc : Processador) (inst : Instrucao) :
    (executeTipoI proc inst).1 = SUCESSO ∨ (executeTipoI proc inst).1 = ERRO_OVERFLOW ∨
      (executeTipoI proc inst).1 = ERRO_MEMORIA := by
  dsimp only [executeTipoI]
  split_ifs <;> simp [fimSucesso_codigo]

theorem executeTipoJ_codigo (proc : Processador) (inst : Instrucao) :
    (executeTipoJ proc inst).1 = SUCESSO ∨ (executeTipoJ proc inst).1 = ERRO_OVERFLOW ∨
      (executeTipoJ proc inst).1 = ERRO_MEMORIA := by
  dsimp only [executeTipoJ]
  split_ifs <;> simp [fimSucesso_codigo]

/-- C1. For every machine state, whatever register 0 holds before the call, and every
instruction whose register fields lie in [0,31], `executeInstrucao` returns one of
success, OverflowError and MemoryError, and register 0 holds 0 after the call. -/
theorem C1_registrador_zero_apos_execucao (proc : Processador) (inst : Instrucao)
    (hcampos : camposValidos inst) :
    ((executeInstrucao proc inst).1 = SUCESSO ∨ (executeInstrucao proc inst).1 = ERRO_OVERFLOW ∨
      (executeInstrucao proc inst).1 = ERRO_MEMORIA) ∧
    ((executeInstrucao proc inst).2.registradores 0).val = 0 := by
  have h0 := setReg_zero_reg0 proc
  have key : (executeInstrucao proc inst).2.registradores 0 = 0 := by
    unfold executeInstrucao
    split_ifs
    · exact executeTipoR_reg0 _ _ h0
    · exact executeTipoI_reg0 _ _ h0
    · exact executeTipoJ_reg0 _ _ h0
    · exact fimSucesso_reg0 _
  refine ⟨?_, ?_⟩
  · unfold executeInstrucao
    split_ifs
    · exact executeTipoR_codigo _ _
    · exact executeTipoI_codigo _ _
    · exact executeTipoJ_codigo _ _
    · exact Or.inl rfl
  · rw [key]; rfl

/-- Instance of C1 at `add $0,$2,$3` on a state whose register 0 holds 7. -/
theorem C1_registrador_zero_apos_execucao_witness :
    camposValidos instAddZero ∧ (procSete.registradores 0).val = 7 ∧
    ((executeInstrucao procSete instAddZero).1 = SUCESSO ∨
      (executeInstrucao procSete instAddZero).1 = ERRO_OVERFLOW ∨
      (executeInstrucao procSete instAddZero).1 = ERRO_MEMORIA) ∧
    ((executeInstrucao procSete instAddZero).2.registradores 0).val = 0 :=
  ⟨by decide, by decide,
    C1_registrador_zero_apos_execucao procSete instAddZero (by decide)⟩

/-! ## C2: a memory error leaves the state unchanged -/

theorem CInt.eq_of_val_eq {a b : CInt} (h : a.val = b.val) : a = b := by
  cases a; cases b; simp_all

theorem CInt.val_zero : (0 : CInt).val = 0 := by decide

theorem setReg_zero_eq_self (proc : Processador) (h0 : (proc.registradores 0).val = 0) :
    proc.setReg 0 0 = proc := by
  have h : proc.registradores 0 = 0 := CInt.eq_of_val_eq (by rw [h0, CInt.val_zero])
  cases proc with
  | mk regs pc memo =>
    simp only [Processador.setReg, regIdx_zero] at h ⊢
    rw [← h, Function.update_eq_self]

theorem executeTipoR_erro_memoria (proc : Processador) (inst : Instrucao)
    (h : (executeTipoR proc inst).1 = ERRO_MEMORIA) : (executeTipoR proc inst).2 = proc := by
  revert h
  dsimp only [executeTipoR]
  split_ifs <;> simp [fimSucesso, SUCESSO, ERRO_MEMORIA, ERRO_OVERFLOW]

theorem executeTipoI_erro_memoria (proc : Processador) (inst : Instrucao)
    (h : (executeTipoI proc inst).1 = ERRO_MEMORIA) : (executeTipoI proc inst).2 = proc := by
  revert h
  dsimp only [executeTipoI]
  split_ifs <;> simp [fimSucesso, SUCESSO, ERRO_MEMORIA, ERRO_OVERFLOW]

theorem executeTipoJ_erro_memoria (proc : Processador) (inst : Instrucao)
    (h : (executeTipoJ proc inst).1 = ERRO_MEMORIA) : (executeTipoJ proc inst).2 = proc := by
  revert h
  dsimp only [executeTipoJ]
  split_ifs <;> simp [fimSucesso, SUCESSO, ERRO_MEMORIA, ERRO_OVERFLOW]

/-- C2. For every machine state whose register 0 holds 0 and every instruction whose
register fields lie in [0,31], if `executeInstrucao` returns MemoryError then the
processor after the call equals the processor before it: the 32 registers, the 1024
memory words and pc are all unchanged. -/
theorem C2_erro_memoria_preserva_estado (proc : Processador) (inst : Instrucao)
    (h0 : (proc.registradores 0).val = 0) (hcampos : camposValidos inst)
    (herro : (executeInstrucao proc inst).1 = ERRO_MEMORIA) :
    (executeInstrucao proc inst).2 = proc := by
  revert herro
  unfold executeInstrucao
  rw [setReg_zero_eq_self proc h0]
  dsimp only
  split_ifs
  · exact executeTipoR_erro_memoria _ _
  · exact executeTipoI_erro_memoria _ _
  · exact executeTipoJ_erro_memoria _ _
  · simp [fimSucesso, SUCESSO, ERRO_MEMORIA]


/-- Instance of C2 at `lw $1,-1($0)` on the initial processor: the address -1 is
refused and the processor is unchanged. -/
theorem C2_erro_memoria_preserva_estado_witness :
    (initProcessador.registradores 0).val = 0 ∧ camposValidos instLwMenosUm ∧
    (executeInstrucao initProcessador instLwMenosUm).1 = ERRO_MEMORIA ∧
    (executeInstrucao initProcessador instLwMenosUm).2 = initProcessador :=
  ⟨by decide, by decide, by decide,
    C2_erro_memoria_preserva_estado initProcessador instLwMenosUm (by decide) (by decide)
      (by decide)⟩

/-! ## C3: checked addition -/

theorem CInt.wrap_val_of_range (x : Int) (hlo : -2147483648 ≤ x) (hhi : x ≤ 2147483647) :
    (CInt.wrap x).val = x := by
  simp only [CInt.wrap]; omega

theorem CInt.add_val (a b : CInt) :
    (CInt.add a b).val = (a.val + b.val + 2147483648) % 4294967296 - 2147483648 := rfl

theorem overflowSoma_iff (a b : CInt) :
    overflowSoma a b = true ↔ (a.val + b.val < -2147483648 ∨ 2147483647 < a.val + b.val) := by
  have ha1 := a.lo
  have ha2 := a.hi
  have hb1 := b.lo
  have hb2 := b.hi
  simp only [overflowSoma, CInt.sub, CInt.INT_MAX, CInt.INT_MIN, CInt.wrap, decide_eq_true_eq]
  omega

theorem regIdx_val (r : CInt) (h1 : 0 ≤ r.val) (h2 : r.val ≤ 31) :
    ((regIdx r).val : Int) = r.val := by
  simp only [regIdx]; omega

theorem regIdx_eq_zero_iff (r : CInt) (h1 : 0 ≤ r.val) (h2 : r.val ≤ 31) :
    regIdx r = 0 ↔ r.val = 0 := by
  have h := regIdx_val r h1 h2
  constructor
  · intro h0
    rw [h0] at h
    simpa using h.symm
  · intro h0
    apply Fin.ext
    rw [h0] at h
    have : ((regIdx r).val : Int) = ((0 : Fin 32).val : Int) := by simpa using h
    exact_mod_cast this

/-- Registers, memory and pc after a write to register `d` followed by the pc advance
and the tail of the executor. -/
theorem fimSucesso_setReg_avancaPc (proc : Processador) (d v : CInt) :
    (fimSucesso (proc.setReg d v).avancaPc).1 = SUCESSO ∧
    (∀ r : Fin 32, (fimSucesso (proc.setReg d v).avancaPc).2.registradores r =
      if r = 0 then 0 else if r = regIdx d then v else proc.registradores r) ∧
    (fimSucesso (proc.setReg d v).avancaPc).2.memoria = proc.memoria ∧
    (fimSucesso (proc.setReg d v).avancaPc).2.pc = CInt.add proc.pc (CInt.wrap 4) := by
  refine ⟨rfl, ?_, rfl, rfl⟩
  intro r
  simp only [fimSucesso, Processador.setReg, Processador.avancaPc, Processador.setPc,
    regIdx_zero, Function.update_apply]


theorem executeInstrucao_add (proc : Processador) (inst : Instrucao)
    (h0 : (proc.registradores 0).val = 0)
    (ht : inst.tipo.val = INSTRUCAO_R) (hf : inst.funcao.val = FUNC_ADD) :
    executeInstrucao proc inst =
      somaVerificada proc (proc.reg inst.rs) (proc.reg inst.rt) inst.rd := by
  unfold executeInstrucao
  rw [setReg_zero_eq_self proc h0]
  simp only [ht, hf, executeTipoR, somaVerificada, if_true]

theorem executeInstrucao_addi (proc : Processador) (inst : Instrucao)
    (h0 : (proc.registradores 0).val = 0)
    (ht : inst.tipo.val = INSTRUCAO_I) (hf : inst.opcode.val = OP_ADDI) :
    executeInstrucao proc inst =
      somaVerificada proc (proc.reg inst.rs) inst.imediato inst.rt := by
  unfold executeInstrucao
  rw [setReg_zero_eq_self proc h0]
  have : ¬ (INSTRUCAO_I = INSTRUCAO_R) := by decide
  simp only [ht, hf, executeTipoI, somaVerificada, if_true, this, if_false]

theorem somaVerificada_spec (proc : Processador) (a b d : CInt)
    (h0 : (proc.registradores 0).val = 0) (hd1 : 0 ≤ d.val) (hd2 : d.val ≤ 31) :
    ((somaVerificada proc a b d).1 = ERRO_OVERFLOW ↔
      (a.val + b.val < -2147483648 ∨ 2147483647 < a.val + b.val)) ∧
    (¬ (a.val + b.val < -2147483648 ∨ 2147483647 < a.val + b.val) →
      (somaVerificada proc a b d).1 = SUCESSO ∧
      ((somaVerificada proc a b d).2.reg d).val = (if d.val = 0 then 0 else a.val + b.val) ∧
      (∀ r : Fin 32, r ≠ regIdx d →
        (somaVerificada proc a b d).2.registradores r = proc.registradores r) ∧
      (somaVerificada proc a b d).2.memoria = proc.memoria ∧
      (somaVerificada proc a b d).2.pc = CInt.add proc.pc 4 ∧
      (proc.pc.val + 4 ≤ 2147483647 →
        (somaVerificada proc a b d).2.pc.val = proc.pc.val + 4)) := by
  have hov := overflowSoma_iff a b
  have hp1 := proc.pc.lo
  by_cases hc : overflowSoma a b = true
  · have hex := hov.mp hc
    have e : somaVerificada proc a b d = (ERRO_OVERFLOW, proc) := by
      simp only [somaVerificada, hc, if_true]
    rw [e]
    exact ⟨⟨fun _ => hex, fun _ => rfl⟩, fun hn => absurd hex hn⟩
  · have hex : ¬ (a.val + b.val < -2147483648 ∨ 2147483647 < a.val + b.val) :=
      fun h => hc (hov.mpr h)
    obtain ⟨hcod, hregs, hmem, hpc⟩ := fimSucesso_setReg_avancaPc proc d (CInt.add a b)
    have e : somaVerificada proc a b d = fimSucesso (proc.setReg d (CInt.add a b)).avancaPc := by
      simp only [somaVerificada, hc]
      rfl
    rw [e]
    refine ⟨⟨fun h => ?_, fun h => absurd h hex⟩, fun _ => ⟨hcod, ?_, ?_, hmem, hpc, ?_⟩⟩
    · rw [hcod] at h; exact absurd h (by decide)
    · rw [Processador.reg, hregs]
      by_cases hd0 : d.val = 0
      · rw [if_pos ((regIdx_eq_zero_iff d hd1 hd2).mpr hd0), if_pos hd0]; rfl
      · rw [if_neg (fun h => hd0 ((regIdx_eq_zero_iff d hd1 hd2).mp h)), if_pos rfl, if_neg hd0,
          CInt.add_val]
        omega
    · intro r hr
      rw [hregs, if_neg hr]
      by_cases hr0 : r = 0
      · rw [if_pos hr0, hr0]; exact (CInt.eq_of_val_eq (by rw [h0, CInt.val_zero])).symm
      · rw [if_neg hr0]
    · intro hle
      rw [hpc, CInt.add_val]
      have : (CInt.wrap 4).val = 4 := by decide
      rw [this]; omega

/-- C3. For every machine state whose register 0 holds 0 and every ADD instruction
(a = registers[rs], b = registers[rt], destination d = rd) or ADDI instruction
(a = registers[rs], b = the immediate, destination d = rt) with register fields in
[0,31], `executeInstrucao` returns OverflowError exactly when the exact integer a + b
lies outside [-2^31, 2^31 - 1]; otherwise it returns success, register d holds a + b
(0 when d is register 0), every other register and the memory are unchanged, and pc is
advanced by the C addition `pc += 4`, which is pc + 4 whenever pc + 4 is an `int`. -/
theorem C3_add_addi_overflow_exato (proc : Processador) (inst : Instrucao) (a b d : CInt)
    (h0 : (proc.registradores 0).val = 0) (hcampos : camposValidos inst)
    (hinst : (inst.tipo.val = INSTRUCAO_R ∧ inst.funcao.val = FUNC_ADD ∧
                a = proc.reg inst.rs ∧ b = proc.reg inst.rt ∧ d = inst.rd) ∨
             (inst.tipo.val = INSTRUCAO_I ∧ inst.opcode.val = OP_ADDI ∧
                a = proc.reg inst.rs ∧ b = inst.imediato ∧ d = inst.rt)) :
    ((executeInstrucao proc inst).1 = ERRO_OVERFLOW ↔
      (a.val + b.val < -2147483648 ∨ 2147483647 < a.val + b.val)) ∧
    (¬ (a.val + b.val < -2147483648 ∨ 2147483647 < a.val + b.val) →
      (executeInstrucao proc inst).1 = SUCESSO ∧
      ((executeInstrucao proc inst).2.reg d).val = (if d.val = 0 then 0 else a.val + b.val) ∧
      (∀ r : Fin 32, r ≠ regIdx d →
        (executeInstrucao proc inst).2.registradores r = proc.registradores r) ∧
      (executeInstrucao proc inst).2.memoria = proc.memoria ∧
      (executeInstrucao proc inst).2.pc = CInt.add proc.pc 4 ∧
      (proc.pc.val + 4 ≤ 2147483647 →
        (executeInstrucao proc inst).2.pc.val = proc.pc.val + 4)) := by
  obtain ⟨hrs, hrt, hrd⟩ := hcampos
  rcases hinst with ⟨ht, hf, ha, hb, hd⟩ | ⟨ht, hf, ha, hb, hd⟩
  · rw [executeInstrucao_add proc inst h0 ht hf, ← ha, ← hb, ← hd]
    exact somaVerificada_spec proc a b d h0 (hd ▸ hrd.1) (hd ▸ hrd.2)
  · rw [executeInstrucao_addi proc inst h0 ht hf, ← ha, ← hb, ← hd]
    exact somaVerificada_spec proc a b d h0 (hd ▸ hrt.1) (hd ▸ hrt.2)

/-- Instance of C3 at `add $1,$2,$3` with `registers[2] = 5`, `registers[3] = 7`:
success, register 1 holds 12 and pc goes from 0 to 4. -/
theorem C3_add_addi_overflow_exato_witness :
    (procCincoSete.registradores 0).val = 0 ∧ camposValidos instAdd123 ∧
    (executeInstrucao procCincoSete instAdd123).1 = SUCESSO ∧
    ((executeInstrucao procCincoSete instAdd123).2.reg 1).val = 12 ∧
    (executeInstrucao procCincoSete instAdd123).2.pc.val = 4 :=
  have h := (C3_add_addi_overflow_exato procCincoSete instAdd123
    (procCincoSete.reg instAdd123.rs) (procCincoSete.reg instAdd123.rt) instAdd123.rd
    (by decide) (by decide) (Or.inl ⟨by decide, by decide, rfl, rfl, rfl⟩)).2 (by decide)
  ⟨by decide, by decide, h.1, h.2.1, h.2.2.2.2.2 (by decide)⟩

/-! ## C4: the overflow test of SUB -/

/-- C4. The overflow test of SUB evaluated on the three boundary cases: with
`registers[rs] = 1` and `registers[rt] = -2^31 + 1`, and with `registers[rs] = 0` and
`registers[rt] = -2^31`, the exact difference is 2^31, outside the `int` range, yet
`executeInstrucao` returns success and writes the wrapped value -2^31 to rd; with
`registers[rs] = -1` and `registers[rt] = 2^31 - 1` the exact difference -2^31 is
inside the range, yet `executeInstrucao` returns OverflowError. -/
theorem C4_sub_teste_overflow_diverge :
    ((procSub.reg instSub712.rs).val - (procSub.reg instSub712.rt).val = 2147483648 ∧
      (executeInstrucao procSub instSub712).1 = SUCESSO ∧
      ((executeInstrucao procSub instSub712).2.reg instSub712.rd).val = -2147483648) ∧
    ((procSub.reg instSub704.rs).val - (procSub.reg instSub704.rt).val = 2147483648 ∧
      (executeInstrucao procSub instSub704).1 = SUCESSO ∧
      ((executeInstrucao procSub instSub704).2.reg instSub704.rd).val = -2147483648) ∧
    ((procSub.reg instSub756.rs).val - (procSub.reg instSub756.rt).val = -2147483648 ∧
      (executeInstrucao procSub instSub756).1 = ERRO_OVERFLOW) := by
  decide

/-! ## C5 and C6: the pc after a successful step -/

theorem CInt.mul_quatro_mod (a : CInt) : (CInt.mul a (CInt.wrap 4)).val % 4 = 0 := by
  have h4 : (CInt.wrap 4).val = 4 := by decide
  simp only [CInt.mul, h4]
  simp only [CInt.wrap]
  omega

/-- The pc after a successful call: unchanged, advanced by `pc += 4`, or a target that
passed the range test, which is the register of a JR, the sum `pc + imediato * 4` of a
BEQ, or the product `endereco * 4` of a jump. -/
theorem executeInstrucao_pc_casos (proc : Processador) (inst : Instrucao)
    (h0 : (proc.registradores 0).val = 0)
    (hs : (executeInstrucao proc inst).1 = SUCESSO) :
    (executeInstrucao proc inst).2.pc = proc.pc ∨
    (executeInstrucao proc inst).2.pc = CInt.add proc.pc (CInt.wrap 4) ∨
    (pcInvalido (executeInstrucao proc inst).2.pc = false ∧
      ((inst.tipo.val = INSTRUCAO_R ∧ inst.funcao.val = FUNC_JR ∧
          (executeInstrucao proc inst).2.pc = proc.reg inst.rs) ∨
        (executeInstrucao proc inst).2.pc =
          CInt.add proc.pc (CInt.mul inst.imediato (CInt.wrap 4)) ∨
        (executeInstrucao proc inst).2.pc = CInt.mul inst.endereco (CInt.wrap 4))) := by
  revert hs
  unfold executeInstrucao
  rw [setReg_zero_eq_self proc h0]
  dsimp only [executeTipoR, executeTipoI, executeTipoJ]
  split_ifs <;>
    simp_all [fimSucesso, Processador.setReg, Processador.setMem, Processador.setPc,
      Processador.avancaPc, SUCESSO, ERRO_MEMORIA, ERRO_OVERFLOW, TAMANHO_INSTRUCAO]

theorem CInt.wrap_quatro_val : (CInt.wrap 4).val = 4 := by decide

theorem pcInvalido_false_iff (x : CInt) :
    pcInvalido x = false ↔ (0 ≤ x.val ∧ x.val < 4096) := by
  simp only [pcInvalido, TAMANHO_MEMORIA, decide_eq_false_iff_not]
  omega

/-- C5 as stated fails: on a valid state with pc = 4092 the instruction `and $1,$2,$3`
succeeds and leaves pc = 4096, outside [0,4096). -/
theorem C5_pc_4092_avanca_para_4096 :
    (procFim.registradores 0).val = 0 ∧ procFim.pc.val % 4 = 0 ∧
    0 ≤ procFim.pc.val ∧ procFim.pc.val < 4096 ∧ camposValidos instAnd123 ∧
    (executeInstrucao procFim instAnd123).1 = SUCESSO ∧
    (executeInstrucao procFim instAnd123).2.pc.val = 4096 := by
  decide

/-- C5, amended. For every valid machine state (register 0 holds 0, pc a multiple of 4
with 0 <= pc < 4096) and every instruction with register fields in [0,31], if
`executeInstrucao` returns success then the resulting pc satisfies 0 <= pc <= 4096, and
it is below 4096 unless the call started at pc = 4092. -/
theorem C5_pc_limite_apos_sucesso (proc : Processador) (inst : Instrucao)
    (h0 : (proc.registradores 0).val = 0) (hpc4 : proc.pc.val % 4 = 0)
    (hpc0 : 0 ≤ proc.pc.val) (hpc1 : proc.pc.val < 4096) (hcampos : camposValidos inst)
    (hs : (executeInstrucao proc inst).1 = SUCESSO) :
    0 ≤ (executeInstrucao proc inst).2.pc.val ∧
    (executeInstrucao proc inst).2.pc.val ≤ 4096 ∧
    (proc.pc.val ≠ 4092 → (executeInstrucao proc inst).2.pc.val < 4096) := by
  rcases executeInstrucao_pc_casos proc inst h0 hs with h | h | ⟨hv, _⟩
  · rw [h]; omega
  · rw [h, CInt.add_val, CInt.wrap_quatro_val]; omega
  · rw [pcInvalido_false_iff] at hv; omega

/-- Instance of C5 (amended) at `add $1,$2,$3` from pc = 0. -/
theorem C5_pc_limite_apos_sucesso_witness :
    (procCincoSete.registradores 0).val = 0 ∧ procCincoSete.pc.val % 4 = 0 ∧
    0 ≤ procCincoSete.pc.val ∧ procCincoSete.pc.val < 4096 ∧ camposValidos instAdd123 ∧
    (executeInstrucao procCincoSete instAdd123).1 = SUCESSO ∧
    0 ≤ (executeInstrucao procCincoSete instAdd123).2.pc.val ∧
    (executeInstrucao procCincoSete instAdd123).2.pc.val ≤ 4096 ∧
    (procCincoSete.pc.val ≠ 4092 →
      (executeInstrucao procCincoSete instAdd123).2.pc.val < 4096) :=
  ⟨by decide, by decide, by decide, by decide, by decide, by decide,
    C5_pc_limite_apos_sucesso procCincoSete instAdd123 (by decide) (by decide) (by decide)
      (by decide) (by decide) (by decide)⟩

/-- C6 as stated fails: on a valid state with `registers[1] = 2` the instruction
`jr $1` succeeds and leaves pc = 2, which is not a multiple of 4. -/
theorem C6_jr_pc_desalinhado :
    (procFim.registradores 0).val = 0 ∧ procFim.pc.val % 4 = 0 ∧
    0 ≤ procFim.pc.val ∧ procFim.pc.val < 4096 ∧ camposValidos instJr1 ∧
    (executeInstrucao procFim instJr1).1 = SUCESSO ∧
    (executeInstrucao procFim instJr1).2.pc.val = 2 ∧
    (executeInstrucao procFim instJr1).2.pc.val % 4 ≠ 0 := by
  decide

/-- C6, amended. For every valid machine state (register 0 holds 0, pc a multiple of 4
with 0 <= pc < 4096) and every instruction with register fields in [0,31] that is not a
JR, or is a JR whose register `registers[rs]` holds a multiple of 4, if
`executeInstrucao` returns success then the resulting pc is a multiple of 4; a
successful JR sets pc to `registers[rs]` as it is. -/
theorem C6_pc_multiplo_de_quatro (proc : Processador) (inst : Instrucao)
    (h0 : (proc.registradores 0).val = 0) (hpc4 : proc.pc.val % 4 = 0)
    (hpc0 : 0 ≤ proc.pc.val) (hpc1 : proc.pc.val < 4096) (hcampos : camposValidos inst)
    (hs : (executeInstrucao proc inst).1 = SUCESSO)
    (hjr : inst.tipo.val = INSTRUCAO_R → inst.funcao.val = FUNC_JR →
      (proc.reg inst.rs).val % 4 = 0) :
    (executeInstrucao proc inst).2.pc.val % 4 = 0 ∧
    (inst.tipo.val = INSTRUCAO_R → inst.funcao.val = FUNC_JR →
      (executeInstrucao proc inst).2.pc = proc.reg inst.rs) := by
  constructor
  · rcases executeInstrucao_pc_casos proc inst h0 hs with h | h | ⟨_, ⟨ht, hf, h⟩ | h | h⟩
    · rw [h]; exact hpc4
    · rw [h, CInt.add_val, CInt.wrap_quatro_val]; omega
    · rw [h]; exact hjr ht hf
    · have hm := CInt.mul_quatro_mod inst.imediato
      rw [h, CInt.add_val]; omega
    · rw [h]; exact CInt.mul_quatro_mod inst.endereco
  · intro ht hf
    revert hs
    unfold executeInstrucao
    rw [setReg_zero_eq_self proc h0]
    have hne : ¬ (FUNC_JR = FUNC_ADD ∨ FUNC_JR = FUNC_SUB ∨ FUNC_JR = FUNC_AND ∨
      FUNC_JR = FUNC_OR ∨ FUNC_JR = FUNC_SLT) := by decide
    simp only [not_or] at hne
    simp only [ht, hf, executeTipoR, if_true, hne, if_false]
    split_ifs <;> simp [Processador.setPc, SUCESSO, ERRO_MEMORIA]

/-- Instance of C6 (amended) at `j 5` from pc = 4092: pc becomes 20. -/
theorem C6_pc_multiplo_de_quatro_witness :
    (procFim.registradores 0).val = 0 ∧ procFim.pc.val % 4 = 0 ∧
    0 ≤ procFim.pc.val ∧ procFim.pc.val < 4096 ∧ camposValidos instJ5 ∧
    (executeInstrucao procFim instJ5).1 = SUCESSO ∧
    (executeInstrucao procFim instJ5).2.pc.val % 4 = 0 :=
  ⟨by decide, by decide, by decide, by decide, by decide, by decide,
    (C6_pc_multiplo_de_quatro procFim instJ5 (by decide) (by decide) (by decide)
      (by decide) (by decide) (by decide) (fun h => absurd h (by decide))).1⟩

/-! ## C7 and C8: LW and SW -/

theorem validaEndereco_iff (e : CInt) :
    validaEndereco e = SUCESSO ↔ (0 ≤ e.val ∧ e.val ≤ 1023) := by
  unfold validaEndereco
  split_ifs with h
  · simp only [TAMANHO_MEMORIA] at h
    simp only [true_iff]; omega
  · simp only [TAMANHO_MEMORIA] at h
    simp only [SUCESSO, ERRO_MEMORIA]
    constructor
    · intro hc; exact absurd hc (by decide)
    · intro hc; omega

theorem executeInstrucao_lw (proc : Processador) (inst : Instrucao)
    (h0 : (proc.registradores 0).val = 0)
    (ht : inst.tipo.val = INSTRUCAO_I) (hop : inst.opcode.val = OP_LW) :
    executeInstrucao proc inst =
      if validaEndereco (CInt.add (proc.reg inst.rs) inst.imediato) ≠ SUCESSO then
        (ERRO_MEMORIA, proc)
      else fimSucesso (proc.setReg inst.rt
        (proc.mem (CInt.add (proc.reg inst.rs) inst.imediato))).avancaPc := by
  unfold executeInstrucao
  rw [setReg_zero_eq_self proc h0]
  have h1 : ¬ (INSTRUCAO_I = INSTRUCAO_R) := by decide
  have h2 : ¬ (OP_LW = OP_ADDI) := by decide
  simp only [ht, hop, executeTipoI, if_true, h1, h2, if_false]

theorem executeInstrucao_sw (proc : Processador) (inst : Instrucao)
    (h0 : (proc.registradores 0).val = 0)
    (ht : inst.tipo.val = INSTRUCAO_I) (hop : inst.opcode.val = OP_SW) :
    executeInstrucao proc inst =
      if validaEndereco (CInt.add (proc.reg inst.rs) inst.imediato) ≠ SUCESSO then
        (ERRO_MEMORIA, proc)
      else fimSucesso (proc.setMem (CInt.add (proc.reg inst.rs) inst.imediato)
        (proc.reg inst.rt)).avancaPc := by
  unfold executeInstrucao
  rw [setReg_zero_eq_self proc h0]
  have h1 : ¬ (INSTRUCAO_I = INSTRUCAO_R) := by decide
  have h2 : ¬ (OP_SW = OP_ADDI) := by decide
  have h3 : ¬ (OP_SW = OP_LW) := by decide
  simp only [ht, hop, executeTipoI, if_true, h1, h2, h3, if_false]

/-- State after the store of `v` at `e`, the pc advance and the tail, when register 0
holds 0: only the word at `e` and pc differ from the state before. -/
theorem fimSucesso_setMem_avancaPc (proc : Processador) (e v : CInt)
    (h0 : (proc.registradores 0).val = 0) :
    (fimSucesso (proc.setMem e v).avancaPc).2 =
      { registradores := proc.registradores, pc := CInt.add proc.pc (CInt.wrap 4),
        memoria := Function.update proc.memoria (memIdx e) v } := by
  have h := setReg_zero_eq_self (proc.setMem e v).avancaPc h0
  simp only [fimSucesso]
  rw [h]
  rfl

/-- C7. The address test of LW at the boundary: with `registers[1] = -2^31` the
instruction `lw $2,-2147483648($1)` has the exact sum -2^32, outside [0,1023], yet
`executeInstrucao` returns success, reads `memory[0]` (which holds 42) into register 2
and advances pc to 4. -/
theorem C7_lw_soma_que_da_a_volta_e_aceita :
    (procMin.registradores 0).val = 0 ∧ camposValidos instLwMin ∧
    (procMin.reg instLwMin.rs).val + instLwMin.imediato.val = -4294967296 ∧
    (CInt.add (procMin.reg instLwMin.rs) instLwMin.imediato).val = 0 ∧
    (executeInstrucao procMin instLwMin).1 = SUCESSO ∧
    ((executeInstrucao procMin instLwMin).2.reg instLwMin.rt).val = 42 ∧
    (executeInstrucao procMin instLwMin).2.pc.val = 4 := by
  decide

/-- The C sum `registers[rs] + imediato` lies in [0,1023] exactly when the exact sum
does, or when the exact sum plus 2^32 does (two operands close to -2^31). -/
theorem endereco_valido_iff (a b : CInt) :
    (0 ≤ (CInt.add a b).val ∧ (CInt.add a b).val ≤ 1023) ↔
      ((0 ≤ a.val + b.val ∧ a.val + b.val ≤ 1023) ∨
        (0 ≤ a.val + b.val + 4294967296 ∧ a.val + b.val + 4294967296 ≤ 1023)) := by
  have ha1 := a.lo
  have ha2 := a.hi
  have hb1 := b.lo
  have hb2 := b.hi
  rw [CInt.add_val]
  omega

theorem memIdx_val (e : CInt) (h1 : 0 ≤ e.val) (h2 : e.val ≤ 1023) :
    ((memIdx e).val : Int) = e.val := by
  simp only [memIdx]; omega

/-- C8. Store/load round trip. For every machine state whose register 0 holds 0, every
SW instruction (rt = t, rs = s, immediate imm) and LW instruction (rt = u, rs = s, the
same immediate) with register fields in [0,31], u not 0 and the exact sum
`registers[s] + imm` in [0,1023]: both calls succeed, and afterwards register u and
the memory word at `registers[s] + imm` hold the value register t had before the store,
and pc has been advanced twice by `pc += 4`, which is pc + 8 whenever that is an `int`. -/
theorem C8_sw_lw_ida_e_volta (proc : Processador) (sw lw : Instrucao) (e : CInt)
    (h0 : (proc.registradores 0).val = 0)
    (hsw : sw.tipo.val = INSTRUCAO_I ∧ sw.opcode.val = OP_SW)
    (hlw : lw.tipo.val = INSTRUCAO_I ∧ lw.opcode.val = OP_LW)
    (hcsw : camposValidos sw) (hclw : camposValidos lw)
    (hs : lw.rs = sw.rs) (himm : lw.imediato = sw.imediato) (hu : lw.rt.val ≠ 0)
    (he : e.val = (proc.reg sw.rs).val + sw.imediato.val)
    (hend : 0 ≤ (proc.reg sw.rs).val + sw.imediato.val ∧
      (proc.reg sw.rs).val + sw.imediato.val ≤ 1023) :
    (executeInstrucao proc sw).1 = SUCESSO ∧
    (executeInstrucao (executeInstrucao proc sw).2 lw).1 = SUCESSO ∧
    (executeInstrucao (executeInstrucao proc sw).2 lw).2.reg lw.rt = proc.reg sw.rt ∧
    (executeInstrucao (executeInstrucao proc sw).2 lw).2.mem e = proc.reg sw.rt ∧
    (executeInstrucao (executeInstrucao proc sw).2 lw).2.pc =
      CInt.add (CInt.add proc.pc 4) 4 ∧
    (proc.pc.val + 8 ≤ 2147483647 →
      (executeInstrucao (executeInstrucao proc sw).2 lw).2.pc.val = proc.pc.val + 8) := by
  have hp1 := proc.pc.lo
  -- the address computed by both instructions is `e`
  have hadd : CInt.add (proc.reg sw.rs) sw.imediato = e := by
    apply CInt.eq_of_val_eq
    rw [CInt.add_val, he]; omega
  have hval : validaEndereco e = SUCESSO := (validaEndereco_iff e).mpr (by omega)
  -- the store
  have hsw1 : executeInstrucao proc sw = fimSucesso (proc.setMem e (proc.reg sw.rt)).avancaPc := by
    rw [executeInstrucao_sw proc sw h0 hsw.1 hsw.2, hadd]
    simp only [ne_eq, hval, not_true_eq_false, if_false]
  have hst := fimSucesso_setMem_avancaPc proc e (proc.reg sw.rt) h0
  have hst1 : (executeInstrucao proc sw).2 =
      { registradores := proc.registradores, pc := CInt.add proc.pc (CInt.wrap 4),
        memoria := Function.update proc.memoria (memIdx e) (proc.reg sw.rt) } := by
    rw [hsw1, hst]
  -- the load
  have hlw1 := executeInstrucao_lw (executeInstrucao proc sw).2 lw (by rw [hst1]; exact h0)
    hlw.1 hlw.2
  have hreg : (executeInstrucao proc sw).2.reg lw.rs = proc.reg sw.rs := by
    rw [hst1, hs]; rfl
  rw [hreg, himm, hadd] at hlw1
  simp only [ne_eq, hval, not_true_eq_false, if_false] at hlw1
  have hmem : (executeInstrucao proc sw).2.mem e = proc.reg sw.rt := by
    rw [hst1]
    simp only [Processador.mem, Function.update_same]
  rw [hmem] at hlw1
  obtain ⟨hcod, hregs, hmemo, hpc⟩ :=
    fimSucesso_setReg_avancaPc (executeInstrucao proc sw).2 lw.rt (proc.reg sw.rt)
  rw [← hlw1] at hcod hregs hmemo hpc
  have hune : regIdx lw.rt ≠ 0 :=
    fun h => hu ((regIdx_eq_zero_iff lw.rt hclw.2.1.1 hclw.2.1.2).mp h)
  refine ⟨by rw [hsw1]; rfl, hcod, ?_, ?_, ?_, ?_⟩
  · rw [Processador.reg, hregs, if_neg hune, if_pos rfl]
  · rw [Processador.mem, hmemo, hst1]
    simp only [Function.update_same]
  · rw [hpc, hst1]; rfl
  · intro hle
    rw [hpc, hst1]
    simp only [CInt.add_val, CInt.wrap_quatro_val]
    omega

/-- Instance of C8 at `sw $1,4($0)` followed by `lw $2,4($0)` with
`registers[1] = 99`: register 2 and `memory[4]` hold 99 and pc is 8. -/
theorem C8_sw_lw_ida_e_volta_witness :
    (procNoventaENove.registradores 0).val = 0 ∧
    camposValidos instSw1 ∧ camposValidos instLw2 ∧
    (executeInstrucao procNoventaENove instSw1).1 = SUCESSO ∧
    (executeInstrucao (executeInstrucao procNoventaENove instSw1).2 instLw2).1 = SUCESSO ∧
    ((executeInstrucao (executeInstrucao procNoventaENove instSw1).2 instLw2).2.reg 2).val
      = 99 ∧
    ((executeInstrucao (executeInstrucao procNoventaENove instSw1).2 instLw2).2.mem 4).val
      = 99 ∧
    (executeInstrucao (executeInstrucao procNoventaENove instSw1).2 instLw2).2.pc.val = 8 :=
  have h := C8_sw_lw_ida_e_volta procNoventaENove instSw1 instLw2 4 (by decide)
    ⟨by decide, by decide⟩ ⟨by decide, by decide⟩ (by decide) (by decide) rfl rfl
    (by decide) (by decide) ⟨by decide, by decide⟩
  ⟨by decide, by decide, by decide, h.1, h.2.1,
    (congrArg CInt.val h.2.2.1).trans (by decide),
    (congrArg CInt.val h.2.2.2.1).trans (by decide),
    (h.2.2.2.2.2 (by decide)).trans (by decide)⟩

/-- For LW and SW the call fails with MemoryError exactly when the C sum
`registers[rs] + imediato` lies outside [0,1023]. -/
theorem lw_sw_erro_memoria_iff (proc : Processador) (inst : Instrucao)
    (h0 : (proc.registradores 0).val = 0) (ht : inst.tipo.val = INSTRUCAO_I)
    (hop : inst.opcode.val = OP_LW ∨ inst.opcode.val = OP_SW) :
    (executeInstrucao proc inst).1 = ERRO_MEMORIA ↔
      ¬ (0 ≤ (CInt.add (proc.reg inst.rs) inst.imediato).val ∧
        (CInt.add (proc.reg inst.rs) inst.imediato).val ≤ 1023) := by
  rw [← validaEndereco_iff]
  rcases hop with hop | hop
  · rw [executeInstrucao_lw proc inst h0 ht hop]
    split_ifs with h
    · simp only [true_iff]; exact h
    · simp only [fimSucesso, SUCESSO, ERRO_MEMORIA]
      exact ⟨fun hc => absurd hc (by decide), fun hc => absurd (not_not.mp h) hc⟩
  · rw [executeInstrucao_sw proc inst h0 ht hop]
    split_ifs with h
    · simp only [true_iff]; exact h
    · simp only [fimSucesso, SUCESSO, ERRO_MEMORIA]
      exact ⟨fun hc => absurd hc (by decide), fun hc => absurd (not_not.mp h) hc⟩

/-! ## C9: BEQ -/

theorem executeInstrucao_beq (proc : Processador) (inst : Instrucao)
    (h0 : (proc.registradores 0).val = 0)
    (ht : inst.tipo.val = INSTRUCAO_I) (hop : inst.opcode.val = OP_BEQ) :
    executeInstrucao proc inst =
      if (proc.reg inst.rs).val = (proc.reg inst.rt).val then
        if pcInvalido (CInt.add proc.pc (CInt.mul inst.imediato (CInt.wrap 4))) then
          (ERRO_MEMORIA, proc)
        else (SUCESSO, proc.setPc (CInt.add proc.pc (CInt.mul inst.imediato (CInt.wrap 4))))
      else (SUCESSO, proc.avancaPc) := by
  unfold executeInstrucao
  rw [setReg_zero_eq_self proc h0]
  have h1 : ¬ (INSTRUCAO_I = INSTRUCAO_R) := by decide
  have h2 : ¬ (OP_BEQ = OP_ADDI) := by decide
  have h3 : ¬ (OP_BEQ = OP_LW) := by decide
  have h4 : ¬ (OP_BEQ = OP_SW) := by decide
  have e1 : ∀ v, (proc.setPc v).setReg 0 0 = proc.setPc v :=
    fun v => setReg_zero_eq_self (proc.setPc v) h0
  have e2 : proc.avancaPc.setReg 0 0 = proc.avancaPc := setReg_zero_eq_self proc.avancaPc h0
  simp only [ht, hop, executeTipoI, if_true, h1, h2, h3, h4, if_false, fimSucesso, e1, e2,
    TAMANHO_INSTRUCAO]

/-- C9. For every machine state whose register 0 holds 0 and whose pc lies in [0,4096),
and every BEQ instruction with rs, rt in [0,31] and immediate in [-32768, 32767]: when
`registers[rs] == registers[rt]` and target = pc + 4 * immediate (from the pc before
the call) lies in [0,4096), `executeInstrucao` returns success with pc = target; when
the registers are equal and the target lies outside [0,4096), it returns MemoryError
with pc unchanged; when the registers differ, it returns success with pc increased
by 4.  In all three cases registers and memory are unchanged. -/
theorem C9_beq_alvo_relativo_ao_pc_atual (proc : Processador) (inst : Instrucao)
    (h0 : (proc.registradores 0).val = 0)
    (hpc : 0 ≤ proc.pc.val ∧ proc.pc.val < 4096)
    (hinst : inst.tipo.val = INSTRUCAO_I ∧ inst.opcode.val = OP_BEQ)
    (hcampos : camposValidos inst)
    (himm : -32768 ≤ inst.imediato.val ∧ inst.imediato.val ≤ 32767) :
    ((proc.reg inst.rs).val = (proc.reg inst.rt).val →
      (0 ≤ proc.pc.val + 4 * inst.imediato.val ∧ proc.pc.val + 4 * inst.imediato.val < 4096) →
      (executeInstrucao proc inst).1 = SUCESSO ∧
      (executeInstrucao proc inst).2.pc.val = proc.pc.val + 4 * inst.imediato.val) ∧
    ((proc.reg inst.rs).val = (proc.reg inst.rt).val →
      ¬ (0 ≤ proc.pc.val + 4 * inst.imediato.val ∧
          proc.pc.val + 4 * inst.imediato.val < 4096) →
      (executeInstrucao proc inst).1 = ERRO_MEMORIA ∧
      (executeInstrucao proc inst).2.pc = proc.pc) ∧
    ((proc.reg inst.rs).val ≠ (proc.reg inst.rt).val →
      (executeInstrucao proc inst).1 = SUCESSO ∧
      (executeInstrucao proc inst).2.pc.val = proc.pc.val + 4) ∧
    (executeInstrucao proc inst).2.registradores = proc.registradores ∧
    (executeInstrucao proc inst).2.memoria = proc.memoria := by
  have halvo : (CInt.add proc.pc (CInt.mul inst.imediato (CInt.wrap 4))).val =
      proc.pc.val + 4 * inst.imediato.val := by
    simp only [CInt.add_val, CInt.mul, CInt.wrap_quatro_val]
    simp only [CInt.wrap]
    omega
  have hinv := pcInvalido_false_iff (CInt.add proc.pc (CInt.mul inst.imediato (CInt.wrap 4)))
  rw [halvo] at hinv
  rw [executeInstrucao_beq proc inst h0 hinst.1 hinst.2]
  refine ⟨?_, ?_, ?_, ?_, ?_⟩
  · intro heq hin
    have hf := hinv.mpr hin
    simp only [heq, if_true, hf, Bool.false_eq_true, if_false, Processador.setPc, halvo,
      and_self]
  · intro heq hout
    have ht : pcInvalido (CInt.add proc.pc (CInt.mul inst.imediato (CInt.wrap 4))) = true := by
      cases hb : pcInvalido (CInt.add proc.pc (CInt.mul inst.imediato (CInt.wrap 4)))
      · exact absurd (hinv.mp hb) hout
      · rfl
    simp only [heq, if_true, ht, and_self]
  · intro hne
    simp only [hne, if_false, Processador.avancaPc, Processador.setPc, CInt.add_val,
      TAMANHO_INSTRUCAO, CInt.wrap_quatro_val, true_and]
    omega
  · split_ifs <;> rfl
  · split_ifs <;> rfl

/-- Instance of C9 at `beq $1,$2,-1` on the initial processor: the registers are equal,
the target -4 is out of range, the result is MemoryError and pc stays 0. -/
theorem C9_beq_alvo_relativo_ao_pc_atual_witness :
    (initProcessador.registradores 0).val = 0 ∧
    (0 ≤ initProcessador.pc.val ∧ initProcessador.pc.val < 4096) ∧
    camposValidos instBeqMenosUm ∧
    (executeInstrucao initProcessador instBeqMenosUm).1 = ERRO_MEMORIA ∧
    (executeInstrucao initProcessador instBeqMenosUm).2.pc = initProcessador.pc :=
  ⟨by decide, by decide, by decide,
    (C9_beq_alvo_relativo_ao_pc_atual initProcessador instBeqMenosUm (by decide) (by decide)
      ⟨by decide, by decide⟩ (by decide) (by decide)).2.1 (by decide) (by decide)⟩

/-! ## C10: J -/

theorem executeInstrucao_j (proc : Processador) (inst : Instrucao)
    (ht : inst.tipo.val = INSTRUCAO_J) (hop : inst.opcode.val = OP_J) :
    executeInstrucao proc inst =
      if pcInvalido (CInt.mul inst.endereco (CInt.wrap 4)) then
        (ERRO_MEMORIA, proc.setReg 0 0)
      else fimSucesso ((proc.setReg 0 0).setPc (CInt.mul inst.endereco (CInt.wrap 4))) := by
  unfold executeInstrucao
  have h1 : ¬ (INSTRUCAO_J = INSTRUCAO_R) := by decide
  have h2 : ¬ (INSTRUCAO_J = INSTRUCAO_I) := by decide
  simp only [ht, hop, executeTipoJ, if_true, h1, h2, if_false, TAMANHO_INSTRUCAO]

/-- C10 as stated fails.  On a state whose register 0 holds 7, `j 5` succeeds with
pc = 20 and register 0 is changed to 0, so the registers are not unchanged.  And for
the address 1073741824, which is 1024 or larger, the C product `endereco * 4` is 0:
`j 1073741824` succeeds and sets pc to 0 instead of returning MemoryError with pc
unchanged. -/
theorem C10_j_contraexemplos :
    ((executeInstrucao procSete instJ5).1 = SUCESSO ∧
      (executeInstrucao procSete instJ5).2.pc.val = 20 ∧
      (procSete.registradores 0).val = 7 ∧
      ((executeInstrucao procSete instJ5).2.registradores 0).val = 0) ∧
    (instJGrande.endereco.val = 1073741824 ∧ procFim.pc.val = 4092 ∧
      (executeInstrucao procFim instJGrande).1 = SUCESSO ∧
      (executeInstrucao procFim instJGrande).2.pc.val = 0) := by
  decide

/-- C10, amended. For every machine state and every J instruction whose address field
a satisfies -2^29 <= a < 2^29 (the product a * 4 is an `int`): `executeInstrucao`
returns success exactly when 0 <= a <= 1023, and then pc = 4 * a; for every other a in
that range it returns MemoryError and pc is unchanged.  In both cases the memory and
the registers other than register 0 are unchanged and register 0 holds 0. -/
theorem C10_j_alvo_e_limites (proc : Processador) (inst : Instrucao)
    (hinst : inst.tipo.val = INSTRUCAO_J ∧ inst.opcode.val = OP_J)
    (ha : -536870912 ≤ inst.endereco.val ∧ inst.endereco.val < 536870912) :
    ((executeInstrucao proc inst).1 = SUCESSO ↔
      (0 ≤ inst.endereco.val ∧ inst.endereco.val ≤ 1023)) ∧
    ((0 ≤ inst.endereco.val ∧ inst.endereco.val ≤ 1023) →
      (executeInstrucao proc inst).2.pc.val = 4 * inst.endereco.val) ∧
    (¬ (0 ≤ inst.endereco.val ∧ inst.endereco.val ≤ 1023) →
      (executeInstrucao proc inst).1 = ERRO_MEMORIA ∧
      (executeInstrucao proc inst).2.pc = proc.pc) ∧
    (∀ r : Fin 32, r ≠ 0 →
      (executeInstrucao proc inst).2.registradores r = proc.registradores r) ∧
    ((executeInstrucao proc inst).2.registradores 0).val = 0 ∧
    (executeInstrucao proc inst).2.memoria = proc.memoria := by
  have halvo : (CInt.mul inst.endereco (CInt.wrap 4)).val = 4 * inst.endereco.val := by
    simp only [CInt.mul, CInt.wrap_quatro_val]
    simp only [CInt.wrap]
    omega
  have hinv := pcInvalido_false_iff (CInt.mul inst.endereco (CInt.wrap 4))
  rw [halvo] at hinv
  have hregs : ∀ (v : CInt) (r : Fin 32), r ≠ 0 →
      (fimSucesso ((proc.setReg 0 0).setPc v)).2.registradores r = proc.registradores r := by
    intro v r hr
    simp only [fimSucesso, Processador.setReg, Processador.setPc, regIdx_zero,
      Function.update_idem]
    exact Function.update_noteq hr _ _
  have hregs0 : ∀ r : Fin 32, r ≠ 0 →
      (proc.setReg 0 0).registradores r = proc.registradores r := by
    intro r hr
    simp only [Processador.setReg, regIdx_zero]
    exact Function.update_noteq hr _ _
  have hzero : ((proc.setReg 0 0).registradores 0).val = 0 := by
    rw [setReg_zero_reg0]; rfl
  rw [executeInstrucao_j proc inst hinst.1 hinst.2]
  cases hb : pcInvalido (CInt.mul inst.endereco (CInt.wrap 4))
  · have hin := hinv.mp hb
    have hin2 : 0 ≤ inst.endereco.val ∧ inst.endereco.val ≤ 1023 := by omega
    rw [if_neg (by decide)]
    refine ⟨⟨fun _ => hin2, fun _ => rfl⟩, fun _ => halvo, fun h => absurd hin2 h,
      hregs _, ?_, rfl⟩
    rw [fimSucesso_reg0]; rfl
  · have hout : ¬ (0 ≤ inst.endereco.val ∧ inst.endereco.val ≤ 1023) := by
      intro h
      have := hinv.mpr (by omega)
      rw [hb] at this
      exact absurd this (by decide)
    rw [if_pos rfl]
    have hcod : ERRO_MEMORIA ≠ SUCESSO := by decide
    exact ⟨⟨fun h => absurd h hcod, fun h => absurd h hout⟩, fun h => absurd h hout,
      fun _ => ⟨rfl, rfl⟩, hregs0, hzero, rfl⟩

/-- Instance of C10 (amended) at `j 1024` on a state with pc = 8: the target 4096 is out
of range, the result is MemoryError and pc stays 8. -/
theorem C10_j_alvo_e_limites_witness :
    (-536870912 ≤ instJ1024.endereco.val ∧ instJ1024.endereco.val < 536870912) ∧
    (executeInstrucao procSete instJ1024).1 = ERRO_MEMORIA ∧
    (executeInstrucao procSete instJ1024).2.pc = procSete.pc :=
  ⟨by decide,
    (C10_j_alvo_e_limites procSete instJ1024 ⟨by decide, by decide⟩ (by decide)).2.2.1
      (by decide)⟩

/-! ## C11: JAL -/

theorem executeInstrucao_jal (proc : Processador) (inst : Instrucao)
    (ht : inst.tipo.val = INSTRUCAO_J) (hop : inst.opcode.val = OP_JAL) :
    executeInstrucao proc inst =
      if pcInvalido (CInt.mul inst.endereco (CInt.wrap 4)) then
        (ERRO_MEMORIA, proc.setReg 0 0)
      else fimSucesso (((proc.setReg 0 0).setReg 31
        (CInt.add proc.pc (CInt.wrap 4))).setPc (CInt.mul inst.endereco (CInt.wrap 4))) := by
  unfold executeInstrucao
  have h1 : ¬ (INSTRUCAO_J = INSTRUCAO_R) := by decide
  have h2 : ¬ (INSTRUCAO_J = INSTRUCAO_I) := by decide
  have h3 : ¬ (OP_JAL = OP_J) := by decide
  simp only [ht, hop, executeTipoJ, if_true, h1, h2, h3, if_false, TAMANHO_INSTRUCAO]
  rfl

theorem regIdx_trinta_e_um : regIdx 31 = 31 := by decide

/-- C11 as stated fails: on a state whose register 0 holds 7 and whose pc is 8,
`jal 10` succeeds with `registers[31] = 12` and pc = 40, and register 0, a register
other than 31, is changed from 7 to 0. -/
theorem C11_jal_altera_registrador_zero :
    instJal10.tipo.val = INSTRUCAO_J ∧ instJal10.opcode.val = OP_JAL ∧
    instJal10.endereco.val = 10 ∧ procSete.pc.val = 8 ∧
    (executeInstrucao procSete instJal10).1 = SUCESSO ∧
    ((executeInstrucao procSete instJal10).2.registradores 31).val = 12 ∧
    (executeInstrucao procSete instJal10).2.pc.val = 40 ∧
    (procSete.registradores 0).val = 7 ∧
    ((executeInstrucao procSete instJal10).2.registradores 0).val = 0 := by
  decide

/-- C11, amended. For every machine state with pc = p before the call and every JAL
instruction: when the address a lies in [0,1023], `executeInstrucao` returns success,
`registers[31]` holds the C sum p + 4 computed from the pc before the jump (p + 4
whenever that is an `int`), pc equals 4 * a, the memory and every register other than
31 and 0 are unchanged, and register 0 holds 0; when the computed target, the C product
a * 4, lies outside [0,4096), it returns MemoryError, `registers[31]` is not written,
and pc, the memory and every register other than 0 are unchanged. -/
theorem C11_jal_liga_e_salta (proc : Processador) (inst : Instrucao)
    (hinst : inst.tipo.val = INSTRUCAO_J ∧ inst.opcode.val = OP_JAL) :
    ((0 ≤ inst.endereco.val ∧ inst.endereco.val ≤ 1023) →
      (executeInstrucao proc inst).1 = SUCESSO ∧
      (executeInstrucao proc inst).2.registradores 31 = CInt.add proc.pc 4 ∧
      (proc.pc.val + 4 ≤ 2147483647 →
        ((executeInstrucao proc inst).2.registradores 31).val = proc.pc.val + 4) ∧
      (executeInstrucao proc inst).2.pc.val = 4 * inst.endereco.val ∧
      (∀ r : Fin 32, r ≠ 31 → r ≠ 0 →
        (executeInstrucao proc inst).2.registradores r = proc.registradores r) ∧
      ((executeInstrucao proc inst).2.registradores 0).val = 0 ∧
      (executeInstrucao proc inst).2.memoria = proc.memoria) ∧
    (¬ (0 ≤ (CInt.mul inst.endereco 4).val ∧ (CInt.mul inst.endereco 4).val < 4096) →
      (executeInstrucao proc inst).1 = ERRO_MEMORIA ∧
      (executeInstrucao proc inst).2.registradores 31 = proc.registradores 31 ∧
      (executeInstrucao proc inst).2.pc = proc.pc ∧
      (∀ r : Fin 32, r ≠ 0 →
        (executeInstrucao proc inst).2.registradores r = proc.registradores r) ∧
      (executeInstrucao proc inst).2.memoria = proc.memoria) := by
  have hinv := pcInvalido_false_iff (CInt.mul inst.endereco (CInt.wrap 4))
  have hp1 := proc.pc.lo
  have hregs0 : ∀ r : Fin 32, r ≠ 0 →
      (proc.setReg 0 0).registradores r = proc.registradores r := by
    intro r hr
    simp only [Processador.setReg, regIdx_zero]
    exact Function.update_noteq hr _ _
  rw [executeInstrucao_jal proc inst hinst.1 hinst.2]
  constructor
  · intro ha
    have halvo : (CInt.mul inst.endereco (CInt.wrap 4)).val = 4 * inst.endereco.val := by
      simp only [CInt.mul, CInt.wrap_quatro_val]
      simp only [CInt.wrap]
      omega
    have hb : pcInvalido (CInt.mul inst.endereco (CInt.wrap 4)) = false :=
      hinv.mpr (by rw [halvo]; omega)
    rw [hb, if_neg (by decide)]
    have h31 : (fimSucesso (((proc.setReg 0 0).setReg 31
        (CInt.add proc.pc (CInt.wrap 4))).setPc
          (CInt.mul inst.endereco (CInt.wrap 4)))).2.registradores 31 =
        CInt.add proc.pc (CInt.wrap 4) := by
      simp only [fimSucesso, Processador.setReg, Processador.setPc, regIdx_zero,
        regIdx_trinta_e_um]
      rw [Function.update_noteq (by decide), Function.update_same]
    refine ⟨rfl, h31, ?_, halvo, ?_, ?_, rfl⟩
    · intro hle
      rw [h31, CInt.add_val, CInt.wrap_quatro_val]
      omega
    · intro r h31r h0r
      simp only [fimSucesso, Processador.setReg, Processador.setPc, regIdx_zero,
        regIdx_trinta_e_um]
      rw [Function.update_noteq h0r, Function.update_noteq h31r, Function.update_noteq h0r]
    · rw [fimSucesso_reg0]; rfl
  · intro hout
    have hb : pcInvalido (CInt.mul inst.endereco (CInt.wrap 4)) = true := by
      cases hc : pcInvalido (CInt.mul inst.endereco (CInt.wrap 4))
      · exact absurd (hinv.mp hc) hout
      · rfl
    rw [hb, if_pos rfl]
    exact ⟨rfl, hregs0 31 (by decide), rfl, hregs0, rfl⟩

/-- Instance of C11 (amended) at `jal 10` from pc = 8: `registers[31] = 12`, pc = 40. -/
theorem C11_jal_liga_e_salta_witness :
    (0 ≤ instJal10.endereco.val ∧ instJal10.endereco.val ≤ 1023) ∧
    (executeInstrucao procSete instJal10).1 = SUCESSO ∧
    ((executeInstrucao procSete instJal10).2.registradores 31).val = 12 ∧
    (executeInstrucao procSete instJal10).2.pc.val = 40 :=
  have h := (C11_jal_liga_e_salta procSete instJal10 ⟨by decide, by decide⟩).1 (by decide)
  ⟨by decide, h.1, (h.2.2.1 (by decide)).trans (by decide), h.2.2.2.1.trans (by decide)⟩

/-! ## C12: JR -/

theorem executeInstrucao_jr (proc : Processador) (inst : Instrucao)
    (h0 : (proc.registradores 0).val = 0)
    (ht : inst.tipo.val = INSTRUCAO_R) (hf : inst.funcao.val = FUNC_JR) :
    executeInstrucao proc inst =
      if pcInvalido (proc.reg inst.rs) then (ERRO_MEMORIA, proc)
      else (SUCESSO, proc.setPc (proc.reg inst.rs)) := by
  unfold executeInstrucao
  rw [setReg_zero_eq_self proc h0]
  have hne : ¬ (FUNC_JR = FUNC_ADD ∨ FUNC_JR = FUNC_SUB ∨ FUNC_JR = FUNC_AND ∨
    FUNC_JR = FUNC_OR ∨ FUNC_JR = FUNC_SLT) := by decide
  simp only [not_or] at hne
  simp only [ht, hf, executeTipoR, if_true, hne, if_false]

/-- C12. For every machine state whose register 0 holds 0 and every JR instruction with
rs in [0,31]: when `registers[rs]` lies in [0,4096), `executeInstrucao` returns success
with pc equal to `registers[rs]` (no further advance) and registers and memory
unchanged; otherwise it returns MemoryError and pc is unchanged. -/
theorem C12_jr_salta_para_registrador (proc : Processador) (inst : Instrucao)
    (h0 : (proc.registradores 0).val = 0)
    (hinst : inst.tipo.val = INSTRUCAO_R ∧ inst.funcao.val = FUNC_JR)
    (hcampos : camposValidos inst) :
    ((0 ≤ (proc.reg inst.rs).val ∧ (proc.reg inst.rs).val < 4096) →
      (executeInstrucao proc inst).1 = SUCESSO ∧
      (executeInstrucao proc inst).2.pc = proc.reg inst.rs ∧
      (executeInstrucao proc inst).2.registradores = proc.registradores ∧
      (executeInstrucao proc inst).2.memoria = proc.memoria) ∧
    (¬ (0 ≤ (proc.reg inst.rs).val ∧ (proc.reg inst.rs).val < 4096) →
      (executeInstrucao proc inst).1 = ERRO_MEMORIA ∧
      (executeInstrucao proc inst).2.pc = proc.pc) := by
  have hinv := pcInvalido_false_iff (proc.reg inst.rs)
  rw [executeInstrucao_jr proc inst h0 hinst.1 hinst.2]
  constructor
  · intro hin
    rw [hinv.mpr hin, if_neg (by decide)]
    exact ⟨rfl, rfl, rfl, rfl⟩
  · intro hout
    have hb : pcInvalido (proc.reg inst.rs) = true := by
      cases hc : pcInvalido (proc.reg inst.rs)
      · exact absurd (hinv.mp hc) hout
      · rfl
    rw [hb, if_pos rfl]
    exact ⟨rfl, rfl⟩

/-- Instance of C12 at `jr $1` with `registers[1] = 64` from pc = 8: pc becomes 64. -/
theorem C12_jr_salta_para_registrador_witness :
    (procSessentaEQuatro.registradores 0).val = 0 ∧ camposValidos instJr1 ∧
    (executeInstrucao procSessentaEQuatro instJr1).1 = SUCESSO ∧
    (executeInstrucao procSessentaEQuatro instJr1).2.pc.val = 64 :=
  have h := (C12_jr_salta_para_registrador procSessentaEQuatro instJr1 (by decide)
    ⟨by decide, by decide⟩ (by decide)).1 (by decide)
  ⟨by decide, by decide, h.1, (congrArg CInt.val h.2.1).trans (by decide)⟩

/-! ## C13 and C14: the state after an overflow -/

/-- When an ADD, a SUB or an ADDI returns OverflowError, the state after the call is the
state before it with register 0 forced to zero: the return precedes the register write
and the pc advance. -/
theorem executeInstrucao_overflow_estado (proc : Processador) (inst : Instrucao)
    (hinst : (inst.tipo.val = INSTRUCAO_R ∧
        (inst.funcao.val = FUNC_ADD ∨ inst.funcao.val = FUNC_SUB)) ∨
      (inst.tipo.val = INSTRUCAO_I ∧ inst.opcode.val = OP_ADDI))
    (hov : (executeInstrucao proc inst).1 = ERRO_OVERFLOW) :
    (executeInstrucao proc inst).2 = proc.setReg 0 0 := by
  revert hov
  unfold executeInstrucao
  have h1 : ¬ (INSTRUCAO_I = INSTRUCAO_R) := by decide
  have h2 : ¬ (FUNC_SUB = FUNC_ADD) := by decide
  have hs : SUCESSO ≠ ERRO_OVERFLOW := by decide
  rcases hinst with ⟨ht, hf | hf⟩ | ⟨ht, hop⟩
  · simp only [ht, hf, executeTipoR, if_true]
    split_ifs
    · intro _; rfl
    · intro h; exact absurd h hs
  · simp only [ht, hf, executeTipoR, if_true, h2, if_false]
    split_ifs
    · intro _; rfl
    · intro h; exact absurd h hs
  · simp only [ht, hop, executeTipoI, if_true, h1, if_false]
    split_ifs
    · intro _; rfl
    · intro h; exact absurd h hs

/-- C13. For every machine state whose register 0 holds 0 and every ADD, SUB or ADDI
instruction with register fields in [0,31], if `executeInstrucao` returns OverflowError
then no register and no memory word is written: the 32 registers and the 1024 memory
words are the same as before the call. -/
theorem C13_overflow_nao_escreve (proc : Processador) (inst : Instrucao)
    (h0 : (proc.registradores 0).val = 0) (hcampos : camposValidos inst)
    (hinst : (inst.tipo.val = INSTRUCAO_R ∧
        (inst.funcao.val = FUNC_ADD ∨ inst.funcao.val = FUNC_SUB)) ∨
      (inst.tipo.val = INSTRUCAO_I ∧ inst.opcode.val = OP_ADDI))
    (hov : (executeInstrucao proc inst).1 = ERRO_OVERFLOW) :
    (executeInstrucao proc inst).2.registradores = proc.registradores ∧
    (executeInstrucao proc inst).2.memoria = proc.memoria := by
  rw [executeInstrucao_overflow_estado proc inst hinst hov, setReg_zero_eq_self proc h0]
  exact ⟨rfl, rfl⟩

/-- Instance of C13 at `addi $1,$2,1` with `registers[2] = INT_MAX`. -/
theorem C13_overflow_nao_escreve_witness :
    (procIntMax.registradores 0).val = 0 ∧ camposValidos instAddi121 ∧
    (executeInstrucao procIntMax instAddi121).1 = ERRO_OVERFLOW ∧
    (executeInstrucao procIntMax instAddi121).2.registradores = procIntMax.registradores ∧
    (executeInstrucao procIntMax instAddi121).2.memoria = procIntMax.memoria :=
  ⟨by decide, by decide, by decide,
    C13_overflow_nao_escreve procIntMax instAddi121 (by decide) (by decide)
      (Or.inr ⟨by decide, by decide⟩) (by decide)⟩

/-- C14 as stated fails: with `registers[2] = INT_MAX` and pc = 8, `addi $1,$2,1`
returns OverflowError and pc is still 8, not 12. -/
theorem C14_overflow_nao_avanca_pc :
    instAddi121.tipo.val = INSTRUCAO_I ∧ instAddi121.opcode.val = OP_ADDI ∧
    procIntMax.pc.val = 8 ∧
    (executeInstrucao procIntMax instAddi121).1 = ERRO_OVERFLOW ∧
    (executeInstrucao procIntMax instAddi121).2.pc.val = 8 := by
  decide

/-- C14, amended. For every machine state and every ADD, SUB or ADDI instruction on
which `executeInstrucao` returns OverflowError, the pc after the call equals the pc
before the call: the return precedes the advance. -/
theorem C14_overflow_mantem_pc (proc : Processador) (inst : Instrucao)
    (hinst : (inst.tipo.val = INSTRUCAO_R ∧
        (inst.funcao.val = FUNC_ADD ∨ inst.funcao.val = FUNC_SUB)) ∨
      (inst.tipo.val = INSTRUCAO_I ∧ inst.opcode.val = OP_ADDI))
    (hov : (executeInstrucao proc inst).1 = ERRO_OVERFLOW) :
    (executeInstrucao proc inst).2.pc = proc.pc := by
  rw [executeInstrucao_overflow_estado proc inst hinst hov]
  rfl

/-- Instance of C14 (amended) at `addi $1,$2,1` with `registers[2] = INT_MAX`. -/
theorem C14_overflow_mantem_pc_witness :
    (executeInstrucao procIntMax instAddi121).1 = ERRO_OVERFLOW ∧
    (executeInstrucao procIntMax instAddi121).2.pc = procIntMax.pc :=
  ⟨by decide,
    C14_overflow_mantem_pc procIntMax instAddi121 (Or.inr ⟨by decide, by decide⟩)
      (by decide)⟩

/-! ## C15: register fields of a decoded instruction -/

theorem validaRegistrador_iff (x : CInt) :
    validaRegistrador x = SUCESSO ↔ (0 ≤ x.val ∧ x.val ≤ 31) := by
  unfold validaRegistrador
  split_ifs with h
  · simp only [NUM_REGISTRADORES] at h
    simp only [true_iff]; omega
  · simp only [NUM_REGISTRADORES] at h
    simp only [SUCESSO, ERRO_REGISTRADOR]
    constructor
    · intro hc; exact absurd hc (by decide)
    · intro hc; omega

/-- A register operand read without error has a value, and the value is in [0,31]. -/
theorem lerRegistrador_sucesso (scan : List Char → Option CInt) (token : Option (List Char))
    (h : (lerRegistrador scan token).codigo = SUCESSO) :
    ∃ x, token.bind scan = some x ∧ lerRegistrador scan token = ⟨SUCESSO, some x⟩ ∧
      (0 ≤ x.val ∧ x.val ≤ 31) := by
  unfold lerRegistrador at h ⊢
  cases hs : token.bind scan with
  | none =>
    rw [hs] at h
    exact absurd h (by decide)
  | some x =>
    rw [hs] at h
    simp only at h ⊢
    by_cases hv : validaRegistrador x = SUCESSO
    · refine ⟨x, rfl, ?_, (validaRegistrador_iff x).mp hv⟩
      simp only [ne_eq, hv, not_true_eq_false, if_false]
    · simp only [ne_eq, hv, not_false_eq_true, if_true] at h
      exact absurd h (by decide)

theorem decodeTipoR_sucesso (operandos : List Char) (inst : Instrucao)
    (h : (decodeTipoR operandos inst).1 = SUCESSO) :
    ∃ x1 x2 x3 : CInt, (0 ≤ x1.val ∧ x1.val ≤ 31) ∧ (0 ≤ x2.val ∧ x2.val ≤ 31) ∧
      (0 ≤ x3.val ∧ x3.val ≤ 31) ∧
      (decodeTipoR operandos inst).2 = { inst with rd := x1, rs := x2, rt := x3 } := by
  unfold decodeTipoR at h ⊢
  simp only at h ⊢
  split_ifs at h ⊢ with h1 h2 h3
  · exact absurd h h1
  · exact absurd h h2
  · exact absurd h h3
  · obtain ⟨x1, _, e1, v1⟩ := lerRegistrador_sucesso _ _ (not_not.mp h1)
    obtain ⟨x2, _, e2, v2⟩ := lerRegistrador_sucesso _ _ (not_not.mp h2)
    obtain ⟨x3, _, e3, v3⟩ := lerRegistrador_sucesso _ _ (not_not.mp h3)
    refine ⟨x1, x2, x3, v1, v2, v3, ?_⟩
    rw [e1, e2, e3]
    rfl

theorem decodeTipoI_sucesso (operandos : List Char) (inst : Instrucao)
    (h : (decodeTipoI operandos inst).1 = SUCESSO) :
    ∃ x1 x2 x3 : CInt, (0 ≤ x1.val ∧ x1.val ≤ 31) ∧ (0 ≤ x2.val ∧ x2.val ≤ 31) ∧
      (decodeTipoI operandos inst).2 = { inst with rt := x1, rs := x2, imediato := x3 } := by
  unfold decodeTipoI at h ⊢
  simp only at h ⊢
  have hp : ERRO_PARAMETRO ≠ SUCESSO := by decide
  by_cases h1 : (lerRegistrador scanEspacoCifraoInt
      (strtok (List.take (MAX_INSTRUCAO_LEN - 1) operandos) ',').1).codigo = SUCESSO
  · obtain ⟨x1, _, e1, v1⟩ := lerRegistrador_sucesso _ _ h1
    rw [e1] at h ⊢
    simp only [ne_eq, not_true_eq_false, if_false, Option.getD_some] at h ⊢
    by_cases h2 : (lerRegistrador scanEspacoCifraoInt
        (strtok (strtok (List.take (MAX_INSTRUCAO_LEN - 1) operandos) ',').2 ',').1).codigo
          = SUCESSO
    · obtain ⟨x2, _, e2, v2⟩ := lerRegistrador_sucesso _ _ h2
      rw [e2] at h ⊢
      simp only [ne_eq, not_true_eq_false, if_false, Option.getD_some] at h ⊢
      generalize lerImediato _ _ = oi at h ⊢
      cases oi with
      | none => exact absurd h hp
      | some x3 => exact ⟨x1, x2, x3, v1, v2, rfl⟩
    · simp only [ne_eq, h2, not_false_eq_true, if_true] at h
  · simp only [ne_eq, h1, not_false_eq_true, if_true] at h

theorem decodeMemoria_sucesso (operandos : List Char) (inst : Instrucao)
    (h : (decodeMemoria operandos inst).1 = SUCESSO) :
    ∃ x1 x2 x3 : CInt, (0 ≤ x1.val ∧ x1.val ≤ 31) ∧ (0 ≤ x2.val ∧ x2.val ≤ 31) ∧
      (decodeMemoria operandos inst).2 = { inst with rt := x1, rs := x2, imediato := x3 } := by
  unfold decodeMemoria at h ⊢
  simp only at h ⊢
  have hp : ERRO_PARAMETRO ≠ SUCESSO := by decide
  by_cases h1 : (lerRegistrador scanEspacoCifraoInt
      (strtok (List.take (MAX_INSTRUCAO_LEN - 1) operandos) ',').1).codigo = SUCESSO
  · obtain ⟨x1, _, e1, v1⟩ := lerRegistrador_sucesso _ _ h1
    rw [e1] at h ⊢
    simp only [ne_eq, not_true_eq_false, if_false, Option.getD_some] at h ⊢
    generalize lerImediato _ _ = oi at h ⊢
    cases oi with
    | none => exact absurd h hp
    | some x3 =>
      simp only at h ⊢
      by_cases h3 : (lerRegistrador scanCifraoInt
          (strtok (strtok (strtok (List.take (MAX_INSTRUCAO_LEN - 1) operandos) ',').2 '(').2
            ')').1).codigo = SUCESSO
      · obtain ⟨x2, _, e3, v2⟩ := lerRegistrador_sucesso _ _ h3
        rw [e3] at h ⊢
        simp only [ne_eq, not_true_eq_false, if_false, Option.getD_some] at h ⊢
        exact ⟨x1, x2, x3, v1, v2, rfl⟩
      · simp only [ne_eq, h3, not_false_eq_true, if_true] at h
  · simp only [ne_eq, h1, not_false_eq_true, if_true] at h
/-! ## The decoder: dispatch on the mnemonic -/

theorem decodeOperacao_R (m : List Char) (f : Int) (operandos : List Char)
    (hm : (m, f) ∈ mnemonicosR) :
    decodeOperacao m operandos = decodeTipoR operandos (instR f) := by
  simp only [mnemonicosR, List.mem_cons, Prod.mk.injEq, List.mem_singleton, List.not_mem_nil,
    or_false] at hm
  rcases hm with ⟨rfl, rfl⟩ | ⟨rfl, rfl⟩ | ⟨rfl, rfl⟩ | ⟨rfl, rfl⟩ | ⟨rfl, rfl⟩ <;> rfl

theorem decodeOperacao_JR (operandos : List Char) :
    decodeOperacao M_JR operandos =
      match scanEspacoCifraoInt operandos with
      | none => (ERRO_PARAMETRO, instR FUNC_JR)
      | some x =>
        if validaRegistrador x ≠ SUCESSO then (ERRO_REGISTRADOR, { instR FUNC_JR with rs := x })
        else (SUCESSO, { instR FUNC_JR with rs := x }) := by
  rfl

theorem decodeOperacao_I (m : List Char) (op : Int) (operandos : List Char)
    (hm : (m, op) ∈ mnemonicosI) :
    decodeOperacao m operandos = decodeTipoI operandos (instI op) := by
  simp only [mnemonicosI, List.mem_cons, Prod.mk.injEq, List.mem_singleton, List.not_mem_nil,
    or_false] at hm
  rcases hm with ⟨rfl, rfl⟩ | ⟨rfl, rfl⟩ <;> rfl

theorem decodeOperacao_Mem (m : List Char) (op : Int) (operandos : List Char)
    (hm : (m, op) ∈ mnemonicosMem) :
    decodeOperacao m operandos = decodeMemoria operandos (instI op) := by
  simp only [mnemonicosMem, List.mem_cons, Prod.mk.injEq, List.mem_singleton,
    List.not_mem_nil, or_false] at hm
  rcases hm with ⟨rfl, rfl⟩ | ⟨rfl, rfl⟩ <;> rfl

theorem decodeOperacao_J (m : List Char) (op : Int) (operandos : List Char)
    (hm : (m, op) ∈ mnemonicosJ) :
    decodeOperacao m operandos =
      match scanInt operandos with
      | none => (ERRO_PARAMETRO, instJ op)
      | some x => (SUCESSO, { instJ op with endereco := x }) := by
  simp only [mnemonicosJ, List.mem_cons, Prod.mk.injEq, List.mem_singleton, List.not_mem_nil,
    or_false] at hm
  rcases hm with ⟨rfl, rfl⟩ | ⟨rfl, rfl⟩ <;> rfl

theorem decodeOperacao_desconhecida (m operandos : List Char) (hm : m ∉ mnemonicos) :
    decodeOperacao m operandos = (ERRO_PARAMETRO, instZero) := by
  simp only [mnemonicos, List.mem_cons, List.mem_singleton, List.not_mem_nil, or_false,
    not_or] at hm
  obtain ⟨h1, h2, h3, h4, h5, h6, h7, h8, h9, h10, h11, h12⟩ := hm
  simp only [decodeOperacao, h1, h2, h3, h4, h5, h6, h7, h8, h9, h10, h11, h12, or_self,
    if_false]
theorem wrap_tipo_R : (CInt.wrap INSTRUCAO_R).val = INSTRUCAO_R := by decide
theorem wrap_tipo_I : (CInt.wrap INSTRUCAO_I).val = INSTRUCAO_I := by decide
theorem wrap_tipo_J : (CInt.wrap INSTRUCAO_J).val = INSTRUCAO_J := by decide

theorem campos_R (f : Int) (x1 x2 x3 : CInt) (v1 : 0 ≤ x1.val ∧ x1.val ≤ 31)
    (v2 : 0 ≤ x2.val ∧ x2.val ≤ 31) (v3 : 0 ≤ x3.val ∧ x3.val ≤ 31)
    (hf : (CInt.wrap f).val ≠ FUNC_JR) :
    camposValidos { instR f with rd := x1, rs := x2, rt := x3 } ∧
    camposNaoUsadosZero { instR f with rd := x1, rs := x2, rt := x3 } := by
  refine ⟨⟨v2, v3, v1⟩, Or.inl wrap_tipo_R, fun _ hjr => absurd hjr hf, fun hc => ?_,
    fun hc => ?_⟩
  · have hc2 : (CInt.wrap INSTRUCAO_R).val = INSTRUCAO_I := hc
    exact absurd hc2 (by decide)
  · have hc2 : (CInt.wrap INSTRUCAO_R).val = INSTRUCAO_J := hc
    exact absurd hc2 (by decide)

theorem campos_JR (x : CInt) (v : 0 ≤ x.val ∧ x.val ≤ 31) :
    camposValidos { instR FUNC_JR with rs := x } ∧
    camposNaoUsadosZero { instR FUNC_JR with rs := x } := by
  have z : (0 : CInt).val = 0 := by decide
  have vz : 0 ≤ (0 : CInt).val ∧ (0 : CInt).val ≤ 31 := by decide
  refine ⟨⟨v, vz, vz⟩, Or.inl wrap_tipo_R, fun _ _ => ⟨z, z⟩, fun hc => ?_, fun hc => ?_⟩
  · have hc2 : (CInt.wrap INSTRUCAO_R).val = INSTRUCAO_I := hc
    exact absurd hc2 (by decide)
  · have hc2 : (CInt.wrap INSTRUCAO_R).val = INSTRUCAO_J := hc
    exact absurd hc2 (by decide)

theorem campos_I (op : Int) (x1 x2 x3 : CInt) (v1 : 0 ≤ x1.val ∧ x1.val ≤ 31)
    (v2 : 0 ≤ x2.val ∧ x2.val ≤ 31) :
    camposValidos { instI op with rt := x1, rs := x2, imediato := x3 } ∧
    camposNaoUsadosZero { instI op with rt := x1, rs := x2, imediato := x3 } := by
  have z : (0 : CInt).val = 0 := by decide
  have vz : 0 ≤ (0 : CInt).val ∧ (0 : CInt).val ≤ 31 := by decide
  refine ⟨⟨v2, v1, vz⟩, Or.inr (Or.inl wrap_tipo_I), fun hc => ?_, fun _ => z, fun hc => ?_⟩
  · have hc2 : (CInt.wrap INSTRUCAO_I).val = INSTRUCAO_R := hc
    exact absurd hc2 (by decide)
  · have hc2 : (CInt.wrap INSTRUCAO_I).val = INSTRUCAO_J := hc
    exact absurd hc2 (by decide)

theorem campos_J (op : Int) (x : CInt) :
    camposValidos { instJ op with endereco := x } ∧
    camposNaoUsadosZero { instJ op with endereco := x } := by
  have z : (0 : CInt).val = 0 := by decide
  have vz : 0 ≤ (0 : CInt).val ∧ (0 : CInt).val ≤ 31 := by decide
  refine ⟨⟨vz, vz, vz⟩, Or.inr (Or.inr wrap_tipo_J), fun hc => ?_, fun hc => ?_,
    fun _ => ⟨z, z, z⟩⟩
  · have hc2 : (CInt.wrap INSTRUCAO_J).val = INSTRUCAO_R := hc
    exact absurd hc2 (by decide)
  · have hc2 : (CInt.wrap INSTRUCAO_J).val = INSTRUCAO_I := hc
    exact absurd hc2 (by decide)

theorem decodeOperacao_sucesso (m operandos : List Char)
    (h : (decodeOperacao m operandos).1 = SUCESSO) :
    camposValidos (decodeOperacao m operandos).2 ∧
    camposNaoUsadosZero (decodeOperacao m operandos).2 := by
  have hp : ERRO_PARAMETRO ≠ SUCESSO := by decide
  by_cases hm : m ∈ mnemonicos
  · simp only [mnemonicos, List.mem_cons, List.mem_singleton, List.not_mem_nil,
      or_false] at hm
    have hR : ∀ f : Int, (m, f) ∈ mnemonicosR →
        camposValidos (decodeOperacao m operandos).2 ∧
        camposNaoUsadosZero (decodeOperacao m operandos).2 := by
      intro f hf
      rw [decodeOperacao_R m f operandos hf] at h ⊢
      obtain ⟨x1, x2, x3, v1, v2, v3, e⟩ := decodeTipoR_sucesso operandos (instR f) h
      rw [e]
      apply campos_R f x1 x2 x3 v1 v2 v3
      simp only [mnemonicosR, List.mem_cons, Prod.mk.injEq, List.mem_singleton,
        List.not_mem_nil, or_false] at hf
      rcases hf with ⟨_, rfl⟩ | ⟨_, rfl⟩ | ⟨_, rfl⟩ | ⟨_, rfl⟩ | ⟨_, rfl⟩ <;> decide
    have hI : ∀ (op : Int) (r : Int × Instrucao), decodeOperacao m operandos = r →
        (∃ x1 x2 x3 : CInt, (0 ≤ x1.val ∧ x1.val ≤ 31) ∧ (0 ≤ x2.val ∧ x2.val ≤ 31) ∧
          r.2 = { instI op with rt := x1, rs := x2, imediato := x3 }) →
        camposValidos (decodeOperacao m operandos).2 ∧
        camposNaoUsadosZero (decodeOperacao m operandos).2 := by
      intro op r hr hx
      obtain ⟨x1, x2, x3, v1, v2, e⟩ := hx
      rw [hr, e]
      exact campos_I op x1 x2 x3 v1 v2
    have hJ : ∀ op : Int, (m, op) ∈ mnemonicosJ →
        camposValidos (decodeOperacao m operandos).2 ∧
        camposNaoUsadosZero (decodeOperacao m operandos).2 := by
      intro op hop
      rw [decodeOperacao_J m op operandos hop] at h ⊢
      generalize scanInt operandos = o at h ⊢
      cases o with
      | none => exact absurd h hp
      | some x => exact campos_J op x
    rcases hm with rfl | rfl | rfl | rfl | rfl | rfl | rfl | rfl | rfl | rfl | rfl | rfl
    · exact hR FUNC_ADD (by decide)
    · exact hR FUNC_SUB (by decide)
    · exact hR FUNC_AND (by decide)
    · exact hR FUNC_OR (by decide)
    · exact hR FUNC_SLT (by decide)
    · rw [decodeOperacao_JR] at h ⊢
      generalize scanEspacoCifraoInt operandos = o at h ⊢
      cases o with
      | none => exact absurd h hp
      | some x =>
        simp only at h ⊢
        by_cases hv : validaRegistrador x = SUCESSO
        · simp only [ne_eq, hv, not_true_eq_false, if_false]
          exact campos_JR x ((validaRegistrador_iff x).mp hv)
        · simp only [ne_eq, hv, not_false_eq_true, if_true] at h
          have hr : ERRO_REGISTRADOR ≠ SUCESSO := by decide
          exact absurd h hr
    · rw [decodeOperacao_I _ OP_ADDI operandos (by decide)] at h
      exact hI OP_ADDI _ (decodeOperacao_I _ OP_ADDI operandos (by decide))
        (decodeTipoI_sucesso _ _ h)
    · rw [decodeOperacao_I _ OP_BEQ operandos (by decide)] at h
      exact hI OP_BEQ _ (decodeOperacao_I _ OP_BEQ operandos (by decide))
        (decodeTipoI_sucesso _ _ h)
    · rw [decodeOperacao_Mem _ OP_LW operandos (by decide)] at h
      exact hI OP_LW _ (decodeOperacao_Mem _ OP_LW operandos (by decide))
        (decodeMemoria_sucesso _ _ h)
    · rw [decodeOperacao_Mem _ OP_SW operandos (by decide)] at h
      exact hI OP_SW _ (decodeOperacao_Mem _ OP_SW operandos (by decide))
        (decodeMemoria_sucesso _ _ h)
    · exact hJ OP_J (by decide)
    · exact hJ OP_JAL (by decide)
  · rw [decodeOperacao_desconhecida m operandos hm] at h
    exact absurd h hp

/-- C15. For every input line, if `decodeInstrucao` returns success then the fields rs,
rt and rd of the instruction it produced all lie in [0,31], and the register fields the
format does not use are 0. -/
theorem C15_decodificada_tem_registradores_validos (assembly : List Char)
    (inst0 inst : Instrucao)
    (h : decodeInstrucao assembly inst0 = some (SUCESSO, inst)) :
    camposValidos inst ∧ camposNaoUsadosZero inst := by
  unfold decodeInstrucao at h
  cases hl : sscanfLinha assembly with
  | none => rw [hl] at h; exact absurd h (by simp)
  | some l =>
    rw [hl] at h
    simp only at h
    by_cases h2 : l.retorno = 2
    · simp only [ne_eq, h2, not_true_eq_false, if_false, Option.some.injEq] at h
      have hcod : (decodeOperacao l.operacao l.operandos).1 = SUCESSO := by rw [h]
      have := decodeOperacao_sucesso l.operacao l.operandos hcod
      rw [h] at this
      exact this
    · simp only [ne_eq, h2, not_false_eq_true, if_true, Option.some.injEq,
        Prod.mk.injEq] at h
      exact absurd h.1 (by decide)

/-- Instance of C15 at the line `add $1,$2,$3`. -/
theorem C15_decodificada_tem_registradores_validos_witness :
    decodeInstrucao linhaAdd123 instZero = some (SUCESSO, instAdd123) ∧
    camposValidos instAdd123 ∧ camposNaoUsadosZero instAdd123 :=
  ⟨by decide,
    C15_decodificada_tem_registradores_validos linhaAdd123 instZero instAdd123 (by decide)⟩

/-! ## Lists of characters: runs and tokens -/

theorem takeWhile_todos {p : Char → Bool} (l : List Char) (h : ∀ c ∈ l, p c = true) :
    l.takeWhile p = l := by
  induction l with
  | nil => rfl
  | cons x xs ih =>
    rw [List.takeWhile, h x (List.mem_cons_self x xs)]
    simp only
    rw [ih (fun c hc => h c (List.mem_cons_of_mem x hc))]

theorem dropWhile_todos {p : Char → Bool} (l : List Char) (h : ∀ c ∈ l, p c = true) :
    l.dropWhile p = [] := by
  induction l with
  | nil => rfl
  | cons x xs ih =>
    rw [List.dropWhile, h x (List.mem_cons_self x xs)]
    simp only
    exact ih (fun c hc => h c (List.mem_cons_of_mem x hc))

theorem takeWhile_ate {p : Char → Bool} (l : List Char) (x : Char) (r : List Char)
    (h : ∀ c ∈ l, p c = true) (hx : p x = false) :
    (l ++ (x :: r)).takeWhile p = l := by
  induction l with
  | nil => simp only [List.nil_append, List.takeWhile, hx]
  | cons y ys ih =>
    rw [List.cons_append, List.takeWhile, h y (List.mem_cons_self y ys)]
    simp only
    rw [ih (fun c hc => h c (List.mem_cons_of_mem y hc))]

theorem dropWhile_ate {p : Char → Bool} (l : List Char) (x : Char) (r : List Char)
    (h : ∀ c ∈ l, p c = true) (hx : p x = false) :
    (l ++ (x :: r)).dropWhile p = x :: r := by
  induction l with
  | nil => simp only [List.nil_append, List.dropWhile, hx]
  | cons y ys ih =>
    rw [List.cons_append, List.dropWhile, h y (List.mem_cons_self y ys)]
    simp only
    exact ih (fun c hc => h c (List.mem_cons_of_mem y hc))

theorem dropWhile_cabeca {p : Char → Bool} (x : Char) (r : List Char) (hx : p x = false) :
    (x :: r).dropWhile p = x :: r := by
  simp only [List.dropWhile, hx]

/-- A token of `strtok`: a non-empty text without the delimiter, followed by the end of
the text or by the delimiter. -/
theorem strtok_campo (f suf : List Char) (d : Char) (hf : f ≠ [])
    (hd : ∀ c ∈ f, c ≠ d) (hs : suf = [] ∨ ∃ r, suf = d :: r) :
    strtok (f ++ suf) d = (some f, suf.drop 1) := by
  obtain ⟨x, xs, rfl⟩ := List.exists_cons_of_ne_nil hf
  have hx : (x == d) = false := by
    simpa using hd x (List.mem_cons_self x xs)
  have hall : ∀ c ∈ x :: xs, (!(c == d)) = true := by
    intro c hc
    simpa using hd c hc
  unfold strtok
  simp only
  rw [List.cons_append, dropWhile_cabeca (p := fun c => c == d) x (xs ++ suf) hx]
  rw [if_neg (List.cons_ne_nil _ _), ← List.cons_append]
  rcases hs with rfl | ⟨r, rfl⟩
  · rw [List.append_nil, takeWhile_todos _ hall, dropWhile_todos _ hall]
  · have hdd : (!(d == d)) = false := by simp
    rw [takeWhile_ate (p := fun c => !(c == d)) _ d r hall hdd,
      dropWhile_ate (p := fun c => !(c == d)) _ d r hall hdd]

theorem strtok_vazio (d : Char) : strtok [] d = (none, []) := rfl

/-! ## Decimal texts -/

theorem valorDigitos_snoc (ds : List Char) (c : Char) :
    valorDigitos (ds ++ [c]) = 10 * valorDigitos ds + (c.toNat - 48) := by
  simp only [valorDigitos, List.foldl_append, List.foldl_cons, List.foldl_nil]

theorem digitChar_digito (m : Nat) (hm : m < 10) :
    (Nat.digitChar m).isDigit = true ∧ (Nat.digitChar m).toNat - 48 = m := by
  interval_cases m <;> exact ⟨by decide, by decide⟩

theorem toDigitsCore_frente (fuel : Nat) : ∀ (n : Nat) (ds : List Char), n < fuel →
    ∃ frente : List Char, Nat.toDigitsCore 10 fuel n ds = frente ++ ds ∧ frente ≠ [] ∧
      (∀ c ∈ frente, c.isDigit = true) ∧ valorDigitos frente = n := by
  induction fuel with
  | zero => intro n ds h; exact absurd h (Nat.not_lt_zero n)
  | succ fuel ih =>
    intro n ds h
    have hd := digitChar_digito (n % 10) (Nat.mod_lt n (by decide))
    unfold Nat.toDigitsCore
    simp only
    by_cases hq : n / 10 = 0
    · rw [if_pos hq]
      refine ⟨[Nat.digitChar (n % 10)], rfl, List.cons_ne_nil _ _, ?_, ?_⟩
      · intro c hc
        rw [List.mem_singleton] at hc
        rw [hc]; exact hd.1
      · simp only [valorDigitos, List.foldl_cons, List.foldl_nil, hd.2]
        omega
    · rw [if_neg hq]
      obtain ⟨fr, e, _, hdig, hval⟩ := ih (n / 10) (Nat.digitChar (n % 10) :: ds) (by omega)
      refine ⟨fr ++ [Nat.digitChar (n % 10)], ?_, ?_, ?_, ?_⟩
      · rw [e, List.append_assoc, List.singleton_append]
      · simp
      · intro c hc
        rw [List.mem_append, List.mem_singleton] at hc
        rcases hc with hc | hc
        · exact hdig c hc
        · rw [hc]; exact hd.1
      · rw [valorDigitos_snoc, hval, hd.2]
        omega

/-- The digits printed for `n`: a non-empty run of digits whose value is `n`. -/
theorem toDigits_digitos (n : Nat) :
    Nat.toDigits 10 n ≠ [] ∧ (∀ c ∈ Nat.toDigits 10 n, c.isDigit = true) ∧
      valorDigitos (Nat.toDigits 10 n) = n := by
  obtain ⟨fr, e, hne, hdig, hval⟩ := toDigitsCore_frente (n + 1) n [] (Nat.lt_succ_self n)
  rw [List.append_nil] at e
  unfold Nat.toDigits
  rw [e]
  exact ⟨hne, hdig, hval⟩

theorem toDigits_comprimento (n : Nat) (h : n ≤ 2147483648) :
    (Nat.toDigits 10 n).length ≤ 10 := by
  unfold Nat.toDigits
  exact Nat.toDigitsCore_length 10 (by decide) (n + 1) n 10 (by omega) (by decide)

/-- Characters of a numeral or of a register operand are no delimiter, no line feed and
no white space. -/
theorem char_de_campo (c : Char) (h : c.isDigit = true ∨ c = '-' ∨ c = '$') :
    c ≠ ',' ∧ c ≠ '(' ∧ c ≠ ')' ∧ c ≠ '\n' ∧ isspace c = false := by
  rcases h with h | rfl | rfl
  · refine ⟨?_, ?_, ?_, ?_, ?_⟩
    · rintro rfl; exact absurd h (by decide)
    · rintro rfl; exact absurd h (by decide)
    · rintro rfl; exact absurd h (by decide)
    · rintro rfl; exact absurd h (by decide)
    · cases hsp : isspace c
      · rfl
      · simp only [isspace, Bool.or_eq_true, beq_iff_eq] at hsp
        rcases hsp with ((((rfl | rfl) | rfl) | rfl) | rfl) | rfl <;>
          exact absurd h (by decide)
  · decide
  · decide

theorem digito_nao_sinal (c : Char) (h : c.isDigit = true) : c ≠ '-' ∧ c ≠ '+' ∧ c ≠ '$' := by
  refine ⟨?_, ?_, ?_⟩
  · rintro rfl; exact absurd h (by decide)
  · rintro rfl; exact absurd h (by decide)
  · rintro rfl; exact absurd h (by decide)

theorem decimal_chars (n : Int) :
    decimal n ≠ [] ∧ ∀ c ∈ decimal n, c.isDigit = true ∨ c = '-' ∨ c = '$' := by
  obtain ⟨hne, hdig, _⟩ := toDigits_digitos n.natAbs
  unfold decimal
  split_ifs
  · refine ⟨List.cons_ne_nil _ _, ?_⟩
    intro c hc
    rw [List.mem_cons] at hc
    rcases hc with rfl | hc
    · exact Or.inr (Or.inl rfl)
    · exact Or.inl (hdig c hc)
  · exact ⟨hne, fun c hc => Or.inl (hdig c hc)⟩

theorem campoReg_chars (n : Int) :
    campoReg n ≠ [] ∧ ∀ c ∈ campoReg n, c.isDigit = true ∨ c = '-' ∨ c = '$' := by
  refine ⟨List.cons_ne_nil _ _, ?_⟩
  intro c hc
  unfold campoReg at hc
  rw [List.mem_cons] at hc
  rcases hc with rfl | hc
  · exact Or.inr (Or.inr rfl)
  · exact (decimal_chars n).2 c hc

theorem decimal_comprimento (n : CInt) : (decimal n.val).length ≤ 11 := by
  have h1 := n.lo
  have h2 := n.hi
  have hl := toDigits_comprimento n.val.natAbs (by omega)
  unfold decimal
  split_ifs
  · rw [List.length_cons]; omega
  · omega

theorem campoReg_comprimento (n : CInt) : (campoReg n.val).length ≤ 12 := by
  have := decimal_comprimento n
  unfold campoReg
  rw [List.length_cons]; omega

theorem intDeNumeral_val (n : CInt) : intDeNumeral n.val = n := by
  have h1 := n.lo
  have h2 := n.hi
  apply CInt.eq_of_val_eq
  unfold intDeNumeral
  rw [min_eq_left (by omega), max_eq_right (by omega)]
  exact CInt.wrap_val_of_range n.val h1 h2

/-- `%d` reads the decimal text of an `int` back to that `int`. -/
theorem scanInt_decimal (n : CInt) : scanInt (decimal n.val) = some n := by
  obtain ⟨hne, hdig, hval⟩ := toDigits_digitos n.val.natAbs
  obtain ⟨d0, r, hd⟩ := List.exists_cons_of_ne_nil hne
  have hd0 : d0.isDigit = true := hdig d0 (by rw [hd]; exact List.mem_cons_self d0 r)
  have hsp0 := (char_de_campo d0 (Or.inl hd0)).2.2.2.2
  obtain ⟨hm, hp, _⟩ := digito_nao_sinal d0 hd0
  have htw : (Nat.toDigits 10 n.val.natAbs).takeWhile Char.isDigit =
      Nat.toDigits 10 n.val.natAbs := takeWhile_todos _ hdig
  unfold decimal scanInt
  by_cases hneg : n.val < 0
  · rw [if_pos hneg]
    have hspm : isspace '-' = false := by decide
    rw [dropWhile_cabeca '-' _ hspm]
    have hs : lerSinal ('-' :: Nat.toDigits 10 n.val.natAbs) =
        (true, Nat.toDigits 10 n.val.natAbs) := by
      simp only [lerSinal, if_true]
    simp only [hs, htw, hne, if_false, if_true, hval]
    have : -(n.val.natAbs : Int) = n.val := by omega
    rw [this, intDeNumeral_val]
  · rw [if_neg hneg]
    rw [hd, dropWhile_cabeca d0 r hsp0]
    have hs : lerSinal (d0 :: r) = (false, d0 :: r) := by
      simp only [lerSinal, hm, hp, if_false]
    rw [← hd] at hs ⊢
    simp only [hs, htw, hne, if_false, hval, Bool.false_eq_true]
    have : (n.val.natAbs : Int) = n.val := by omega
    rw [this, intDeNumeral_val]

theorem scanCifraoInt_campoReg (n : CInt) : scanCifraoInt (campoReg n.val) = some n := by
  unfold campoReg scanCifraoInt
  simp only [if_true]
  exact scanInt_decimal n

theorem scanEspacoCifraoInt_campoReg (n : CInt) :
    scanEspacoCifraoInt (campoReg n.val) = some n := by
  unfold scanEspacoCifraoInt
  have hsp : isspace '$' = false := by decide
  have e : campoReg n.val = '$' :: decimal n.val := rfl
  rw [e, dropWhile_cabeca '$' _ hsp, ← e]
  exact scanCifraoInt_campoReg n

/-- A register operand whose text is the decimal text of `n`. -/
theorem lerRegistrador_campoReg (scan : List Char → Option CInt) (n : CInt)
    (hscan : scan (campoReg n.val) = some n) :
    lerRegistrador scan (some (campoReg n.val)) =
      if 0 ≤ n.val ∧ n.val ≤ 31 then ⟨SUCESSO, some n⟩ else ⟨ERRO_REGISTRADOR, some n⟩ := by
  unfold lerRegistrador
  simp only [Option.bind, hscan]
  by_cases hv : 0 ≤ n.val ∧ n.val ≤ 31
  · have := (validaRegistrador_iff n).mpr hv
    simp only [ne_eq, this, not_true_eq_false, if_false, hv, and_self, if_true]
  · have : ¬ validaRegistrador n = SUCESSO := fun h => hv ((validaRegistrador_iff n).mp h)
    simp only [ne_eq, this, not_false_eq_true, if_true, hv, if_false]

theorem lerRegistrador_nulo (scan : List Char → Option CInt) :
    lerRegistrador scan none = ⟨ERRO_PARAMETRO, none⟩ := rfl

/-! ## The decoder on canonical operand texts -/

theorem campoReg_sem (n : Int) (d : Char) (hd : d = ',' ∨ d = '(' ∨ d = ')') :
    campoReg n ≠ [] ∧ ∀ c ∈ campoReg n, c ≠ d := by
  refine ⟨(campoReg_chars n).1, ?_⟩
  intro c hc
  have h := char_de_campo c ((campoReg_chars n).2 c hc)
  rcases hd with rfl | rfl | rfl
  · exact h.1
  · exact h.2.1
  · exact h.2.2.1

theorem decimal_sem (n : Int) (d : Char) (hd : d = ',' ∨ d = '(' ∨ d = ')') :
    decimal n ≠ [] ∧ ∀ c ∈ decimal n, c ≠ d := by
  refine ⟨(decimal_chars n).1, ?_⟩
  intro c hc
  have h := char_de_campo c ((decimal_chars n).2 c hc)
  rcases hd with rfl | rfl | rfl
  · exact h.1
  · exact h.2.1
  · exact h.2.2.1

theorem take_operandos (operandos : List Char) (h : operandos.length ≤ 99) :
    operandos.take (MAX_INSTRUCAO_LEN - 1) = operandos :=
  List.take_of_length_le h

/-- `decodeTipoR` on `$a,$b,$c`, alone or followed by a comma and anything: the first
register out of [0,31] gives a register error, otherwise the three fields are set. -/
theorem decodeTipoR_textoR (a b c : CInt) (suf : List Char) (inst : Instrucao)
    (hs : suf = [] ∨ ∃ r, suf = ',' :: r)
    (hlen : (textoR a.val b.val c.val suf).length ≤ 99) :
    decodeTipoR (textoR a.val b.val c.val suf) inst =
      if ¬ (0 ≤ a.val ∧ a.val ≤ 31) then (ERRO_REGISTRADOR, { inst with rd := a })
      else if ¬ (0 ≤ b.val ∧ b.val ≤ 31) then
        (ERRO_REGISTRADOR, { inst with rd := a, rs := b })
      else if ¬ (0 ≤ c.val ∧ c.val ≤ 31) then
        (ERRO_REGISTRADOR, { inst with rd := a, rs := b, rt := c })
      else (SUCESSO, { inst with rd := a, rs := b, rt := c }) := by
  have ha := campoReg_sem a.val ',' (Or.inl rfl)
  have hb := campoReg_sem b.val ',' (Or.inl rfl)
  have hc := campoReg_sem c.val ',' (Or.inl rfl)
  have t1 := strtok_campo (campoReg a.val)
    (',' :: (campoReg b.val ++ (',' :: (campoReg c.val ++ suf)))) ',' ha.1 ha.2
    (Or.inr ⟨_, rfl⟩)
  have t2 := strtok_campo (campoReg b.val) (',' :: (campoReg c.val ++ suf)) ',' hb.1 hb.2
    (Or.inr ⟨_, rfl⟩)
  have t3 := strtok_campo (campoReg c.val) suf ',' hc.1 hc.2 hs
  simp only [List.drop_succ_cons, List.drop_zero] at t1 t2
  have hsuc : ¬ (SUCESSO ≠ SUCESSO) := fun h => h rfl
  have hreg : ERRO_REGISTRADOR ≠ SUCESSO := by decide
  unfold decodeTipoR
  rw [take_operandos _ hlen]
  unfold textoR
  simp only [t1, t2, t3, lerRegistrador_campoReg _ _ (scanEspacoCifraoInt_campoReg _)]
  by_cases va : 0 ≤ a.val ∧ a.val ≤ 31
  · by_cases vb : 0 ≤ b.val ∧ b.val ≤ 31
    · by_cases vc : 0 ≤ c.val ∧ c.val ≤ 31
      · simp only [va, vb, vc, and_self, if_true, hsuc, if_false, Option.getD_some,
          not_true_eq_false]
      · simp only [va, vb, vc, and_self, if_true, hsuc, if_false, Option.getD_some,
          not_true_eq_false, not_false_eq_true, hreg, ne_eq]
    · simp only [va, vb, and_self, if_true, hsuc, if_false, Option.getD_some,
        not_true_eq_false, not_false_eq_true, hreg, ne_eq]
  · simp only [va, if_false, Option.getD_some, not_false_eq_true, hreg, ne_eq, if_true]

theorem lerImediato_decimal (n imediato : CInt) :
    lerImediato (some (decimal n.val)) imediato = some n := by
  simp only [lerImediato, scanInt_decimal]

/-- `decodeTipoI` on `$a,$b,n`, alone or followed by a comma and anything. -/
theorem decodeTipoI_textoI (a b n : CInt) (suf : List Char) (inst : Instrucao)
    (hs : suf = [] ∨ ∃ r, suf = ',' :: r)
    (hlen : (textoI a.val b.val n.val suf).length ≤ 99) :
    decodeTipoI (textoI a.val b.val n.val suf) inst =
      if ¬ (0 ≤ a.val ∧ a.val ≤ 31) then (ERRO_REGISTRADOR, { inst with rt := a })
      else if ¬ (0 ≤ b.val ∧ b.val ≤ 31) then
        (ERRO_REGISTRADOR, { inst with rt := a, rs := b })
      else (SUCESSO, { inst with rt := a, rs := b, imediato := n }) := by
  have ha := campoReg_sem a.val ',' (Or.inl rfl)
  have hb := campoReg_sem b.val ',' (Or.inl rfl)
  have hn := decimal_sem n.val ',' (Or.inl rfl)
  have t1 := strtok_campo (campoReg a.val)
    (',' :: (campoReg b.val ++ (',' :: (decimal n.val ++ suf)))) ',' ha.1 ha.2
    (Or.inr ⟨_, rfl⟩)
  have t2 := strtok_campo (campoReg b.val) (',' :: (decimal n.val ++ suf)) ',' hb.1 hb.2
    (Or.inr ⟨_, rfl⟩)
  have t3 := strtok_campo (decimal n.val) suf ',' hn.1 hn.2 hs
  simp only [List.drop_succ_cons, List.drop_zero] at t1 t2
  have hsuc : ¬ (SUCESSO ≠ SUCESSO) := fun h => h rfl
  have hreg : ERRO_REGISTRADOR ≠ SUCESSO := by decide
  unfold decodeTipoI
  rw [take_operandos _ hlen]
  unfold textoI
  simp only [t1, t2, t3, lerRegistrador_campoReg _ _ (scanEspacoCifraoInt_campoReg _),
    lerImediato_decimal]
  by_cases va : 0 ≤ a.val ∧ a.val ≤ 31
  · by_cases vb : 0 ≤ b.val ∧ b.val ≤ 31
    · simp only [va, vb, and_self, if_true, hsuc, if_false, Option.getD_some,
        not_true_eq_false]
    · simp only [va, vb, and_self, if_true, hsuc, if_false, Option.getD_some,
        not_true_eq_false, not_false_eq_true, hreg, ne_eq]
  · simp only [va, if_false, Option.getD_some, not_false_eq_true, hreg, ne_eq, if_true]

/-- `decodeMemoria` on `$a,n($b`, alone or followed by `)` and anything. -/
theorem decodeMemoria_textoMem (a n b : CInt) (suf : List Char) (inst : Instrucao)
    (hs : suf = [] ∨ ∃ r, suf = ')' :: r)
    (hlen : (textoMem a.val n.val b.val suf).length ≤ 99) :
    decodeMemoria (textoMem a.val n.val b.val suf) inst =
      if ¬ (0 ≤ a.val ∧ a.val ≤ 31) then (ERRO_REGISTRADOR, { inst with rt := a })
      else if ¬ (0 ≤ b.val ∧ b.val ≤ 31) then
        (ERRO_REGISTRADOR, { inst with rt := a, imediato := n, rs := b })
      else (SUCESSO, { inst with rt := a, imediato := n, rs := b }) := by
  have ha := campoReg_sem a.val ',' (Or.inl rfl)
  have hn := decimal_sem n.val '(' (Or.inr (Or.inl rfl))
  have hb := campoReg_sem b.val ')' (Or.inr (Or.inr rfl))
  have t1 := strtok_campo (campoReg a.val)
    (',' :: (decimal n.val ++ ('(' :: (campoReg b.val ++ suf)))) ',' ha.1 ha.2
    (Or.inr ⟨_, rfl⟩)
  have t2 := strtok_campo (decimal n.val) ('(' :: (campoReg b.val ++ suf)) '(' hn.1 hn.2
    (Or.inr ⟨_, rfl⟩)
  have t3 := strtok_campo (campoReg b.val) suf ')' hb.1 hb.2 hs
  simp only [List.drop_succ_cons, List.drop_zero] at t1 t2
  have hsuc : ¬ (SUCESSO ≠ SUCESSO) := fun h => h rfl
  have hreg : ERRO_REGISTRADOR ≠ SUCESSO := by decide
  unfold decodeMemoria
  rw [take_operandos _ hlen]
  unfold textoMem
  simp only [t1, t2, t3, lerRegistrador_campoReg _ _ (scanEspacoCifraoInt_campoReg _),
    lerRegistrador_campoReg _ _ (scanCifraoInt_campoReg _), lerImediato_decimal]
  by_cases va : 0 ≤ a.val ∧ a.val ≤ 31
  · by_cases vb : 0 ≤ b.val ∧ b.val ≤ 31
    · simp only [va, vb, and_self, if_true, hsuc, if_false, Option.getD_some,
        not_true_eq_false]
    · simp only [va, vb, and_self, if_true, hsuc, if_false, Option.getD_some,
        not_true_eq_false, not_false_eq_true, hreg, ne_eq]
  · simp only [va, if_false, Option.getD_some, not_false_eq_true, hreg, ne_eq, if_true]

/-! ## The first `sscanf` on a line `mnemonic operands` -/

theorem sscanfLinha_linha (m operandos : List Char) (hm : tokenBemFormado m)
    (ho : operandosBemFormados operandos) :
    sscanfLinha (linha m operandos) = some ⟨2, m, operandos⟩ := by
  obtain ⟨hne, hsp, hlen⟩ := hm
  obtain ⟨⟨c0, r0, rfl, hc0⟩, hnl, holen⟩ := ho
  obtain ⟨x, xs, rfl⟩ := List.exists_cons_of_ne_nil hne
  have hx : isspace x = false := hsp x (List.mem_cons_self x xs)
  have hall : ∀ c ∈ x :: xs, (!isspace c) = true := by
    intro c hc
    rw [hsp c hc]; rfl
  have hb : (!isspace ' ') = false := by decide
  have hb2 : isspace ' ' = true := by decide
  have hnl2 : ∀ c ∈ c0 :: r0, (!(c == '\n')) = true := by
    intro c hc
    simpa using hnl c hc
  unfold sscanfLinha linha
  simp only
  rw [List.cons_append, dropWhile_cabeca x _ hx, ← List.cons_append,
    takeWhile_ate (p := fun c => !isspace c) _ ' ' _ hall hb,
    dropWhile_ate (p := fun c => !isspace c) _ ' ' _ hall hb]
  have e1 : (' ' :: c0 :: r0).dropWhile isspace = c0 :: r0 := by
    rw [List.dropWhile, hb2]
    exact dropWhile_cabeca c0 r0 hc0
  rw [e1, takeWhile_todos _ hnl2]
  rw [if_neg (List.cons_ne_nil _ _), if_neg (by omega), if_neg (List.cons_ne_nil _ _),
    if_neg (by simp only [MAX_INSTRUCAO_LEN]; omega)]

theorem decodeInstrucao_linha (m operandos : List Char) (inst0 : Instrucao)
    (hm : tokenBemFormado m) (ho : operandosBemFormados operandos) :
    decodeInstrucao (linha m operandos) inst0 = some (decodeOperacao m operandos) := by
  unfold decodeInstrucao
  rw [sscanfLinha_linha m operandos hm ho]
  simp only [ne_eq, not_true_eq_false, if_false]

/-! ## The decoder on operand texts with too few fields or a missing delimiter -/

theorem strtok_inteiro (f : List Char) (d : Char) (hf : f ≠ []) (hd : ∀ c ∈ f, c ≠ d) :
    strtok f d = (some f, []) := by
  have h := strtok_campo f [] d hf hd (Or.inl rfl)
  rw [List.append_nil] at h
  exact h

theorem strtok_apos_delimitador (s : List Char) (d : Char) :
    strtok (d :: s) d = strtok s d := by
  have hd : (d == d) = true := by simp
  unfold strtok
  simp only [List.dropWhile, hd]

theorem lerRegistrador_valido (scan : List Char → Option CInt) (n : CInt)
    (hscan : scan (campoReg n.val) = some n) (hv : 0 ≤ n.val ∧ n.val ≤ 31) :
    lerRegistrador scan (some (campoReg n.val)) = ⟨SUCESSO, some n⟩ := by
  rw [lerRegistrador_campoReg scan n hscan, if_pos hv]

/-- The code of a register operand is one of the three. -/
theorem lerRegistrador_codigos (scan : List Char → Option CInt) (token : Option (List Char)) :
    (lerRegistrador scan token).codigo = SUCESSO ∨
    ((lerRegistrador scan token).codigo = ERRO_PARAMETRO ∧ token.bind scan = none) ∨
    ((lerRegistrador scan token).codigo = ERRO_REGISTRADOR ∧
      ∃ x, token.bind scan = some x ∧ ¬ (0 ≤ x.val ∧ x.val ≤ 31)) := by
  unfold lerRegistrador
  generalize token.bind scan = o
  cases o with
  | none => exact Or.inr (Or.inl ⟨rfl, rfl⟩)
  | some x =>
    simp only
    by_cases hv : validaRegistrador x = SUCESSO
    · simp only [ne_eq, hv, not_true_eq_false, if_false, true_or]
    · have hv2 : validaRegistrador x ≠ SUCESSO := hv
      rw [if_pos hv2]
      exact Or.inr (Or.inr ⟨rfl, x, rfl, fun h => hv ((validaRegistrador_iff x).mpr h)⟩)

/-- `decodeMemoria` on an operand text without comma: never a success; a register
error exactly when the register number read after `$` is out of range. -/
theorem decodeMemoria_sem_virgula (operandos : List Char) (inst : Instrucao)
    (hne : operandos ≠ []) (hlen : operandos.length ≤ 99)
    (hv : ∀ c ∈ operandos, c ≠ ',') :
    ((decodeMemoria operandos inst).1 = ERRO_PARAMETRO ∨
      (decodeMemoria operandos inst).1 = ERRO_REGISTRADOR) ∧
    ((∀ x, scanEspacoCifraoInt operandos = some x → (0 ≤ x.val ∧ x.val ≤ 31)) →
      (decodeMemoria operandos inst).1 = ERRO_PARAMETRO) := by
  have hp : ERRO_PARAMETRO ≠ SUCESSO := by decide
  have hr : ERRO_REGISTRADOR ≠ SUCESSO := by decide
  have hcod := lerRegistrador_codigos scanEspacoCifraoInt (some operandos)
  have e : decodeMemoria operandos inst =
      if (lerRegistrador scanEspacoCifraoInt (some operandos)).codigo ≠ SUCESSO then
        ((lerRegistrador scanEspacoCifraoInt (some operandos)).codigo,
          { inst with rt :=
            (lerRegistrador scanEspacoCifraoInt (some operandos)).valor.getD inst.rt })
      else (ERRO_PARAMETRO, { inst with rt :=
            (lerRegistrador scanEspacoCifraoInt (some operandos)).valor.getD inst.rt }) := by
    unfold decodeMemoria
    rw [take_operandos _ hlen]
    simp only [strtok_inteiro _ ',' hne hv, strtok_vazio, lerRegistrador_nulo, lerImediato,
      ne_eq, hp, not_false_eq_true, if_true, Option.getD_none]
  rw [e]
  generalize lerRegistrador scanEspacoCifraoInt (some operandos) = r1 at hcod ⊢
  rcases hcod with h | ⟨h, _⟩ | ⟨h, x, hx, hbad⟩
  · rw [if_neg (fun hc => hc h)]
    exact ⟨Or.inl rfl, fun _ => rfl⟩
  · rw [if_pos (by rw [h]; exact hp)]
    exact ⟨Or.inl h, fun _ => h⟩
  · rw [if_pos (by rw [h]; exact hr)]
    refine ⟨Or.inr h, fun hall => ?_⟩
    simp only [Option.bind] at hx
    exact absurd (hall x hx) hbad

/-- `decodeMemoria` on an operand text without comma in which the register number read
after `$` is out of range: a register error. -/
theorem decodeMemoria_sem_virgula_registrador (operandos : List Char) (inst : Instrucao)
    (hne : operandos ≠ []) (hlen : operandos.length ≤ 99)
    (hv : ∀ c ∈ operandos, c ≠ ',') (x : CInt)
    (hx : scanEspacoCifraoInt operandos = some x) (hbad : ¬ (0 ≤ x.val ∧ x.val ≤ 31)) :
    (decodeMemoria operandos inst).1 = ERRO_REGISTRADOR := by
  have hr : ERRO_REGISTRADOR ≠ SUCESSO := by decide
  have hvx : validaRegistrador x ≠ SUCESSO := fun h => hbad ((validaRegistrador_iff x).mp h)
  have e1 : lerRegistrador scanEspacoCifraoInt (some operandos) = ⟨ERRO_REGISTRADOR, some x⟩ := by
    unfold lerRegistrador
    simp only [Option.bind, hx]
    rw [if_pos hvx]
  unfold decodeMemoria
  rw [take_operandos _ hlen]
  simp only [strtok_inteiro _ ',' hne hv, e1, ne_eq, hr, not_false_eq_true, if_true]

/-- `decodeMemoria` on `$t,` followed by a text without `(`. -/
theorem decodeMemoria_sem_parentese (t : CInt) (resto : List Char) (inst : Instrucao)
    (vt : 0 ≤ t.val ∧ t.val ≤ 31)
    (hlen : (campoReg t.val ++ (',' :: resto)).length ≤ 99)
    (hp : ∀ c ∈ resto, c ≠ '(') :
    (decodeMemoria (campoReg t.val ++ (',' :: resto)) inst).1 = ERRO_PARAMETRO := by
  have ht := campoReg_sem t.val ',' (Or.inl rfl)
  have t1 := strtok_campo (campoReg t.val) (',' :: resto) ',' ht.1 ht.2 (Or.inr ⟨_, rfl⟩)
  simp only [List.drop_succ_cons, List.drop_zero] at t1
  have hpar : ERRO_PARAMETRO ≠ SUCESSO := by decide
  unfold decodeMemoria
  rw [take_operandos _ hlen]
  simp only [t1, lerRegistrador_valido _ t (scanEspacoCifraoInt_campoReg t) vt, ne_eq,
    not_true_eq_false, if_false]
  by_cases hr : resto = []
  · subst hr
    simp only [strtok_vazio, lerImediato, lerRegistrador_nulo, ne_eq, hpar,
      not_false_eq_true, if_true]
  · simp only [strtok_inteiro resto '(' hr hp, strtok_vazio, lerRegistrador_nulo]
    unfold lerImediato
    simp only
    cases scanInt resto with
    | none => rfl
    | some x => simp only [ne_eq, hpar, not_false_eq_true, if_true]

theorem scanInt_cifrao (r : List Char) : scanInt ('$' :: r) = none := by
  have hsp : isspace '$' = false := by decide
  unfold scanInt
  rw [dropWhile_cabeca '$' r hsp]
  have hs : lerSinal ('$' :: r) = (false, '$' :: r) := by
    simp only [lerSinal]
    rw [if_neg (by decide), if_neg (by decide)]
  have hd : Char.isDigit '$' = false := by decide
  simp only [hs, List.takeWhile, hd, if_true]

/-- `decodeMemoria` on `$t,` then a text `meio` without `(` in which `%d` finds no
number, then `($s)`. -/
theorem decodeMemoria_sem_inteiro (t s : CInt) (meio : List Char) (inst : Instrucao)
    (vt : 0 ≤ t.val ∧ t.val ≤ 31)
    (hlen : (campoReg t.val ++ (',' :: (meio ++ ('(' :: (campoReg s.val ++ [')']))))).length
      ≤ 99)
    (hp : ∀ c ∈ meio, c ≠ '(') (hscan : scanInt meio = none) :
    (decodeMemoria (campoReg t.val ++ (',' :: (meio ++ ('(' :: (campoReg s.val ++ [')'])))))
      inst).1 = ERRO_PARAMETRO := by
  have ht := campoReg_sem t.val ',' (Or.inl rfl)
  have hs := campoReg_sem s.val '(' (Or.inr (Or.inl rfl))
  have t1 := strtok_campo (campoReg t.val)
    (',' :: (meio ++ ('(' :: (campoReg s.val ++ [')'])))) ',' ht.1 ht.2 (Or.inr ⟨_, rfl⟩)
  simp only [List.drop_succ_cons, List.drop_zero] at t1
  unfold decodeMemoria
  rw [take_operandos _ hlen]
  simp only [t1, lerRegistrador_valido _ t (scanEspacoCifraoInt_campoReg t) vt, ne_eq,
    not_true_eq_false, if_false]
  by_cases hm : meio = []
  · subst hm
    have hall : ∀ c ∈ campoReg s.val ++ [')'], c ≠ '(' := by
      intro c hc
      rw [List.mem_append, List.mem_singleton] at hc
      rcases hc with hc | rfl
      · exact hs.2 c hc
      · decide
    have e0 : campoReg s.val ++ [')'] = '$' :: (decimal s.val ++ [')']) := rfl
    have e : strtok ([] ++ ('(' :: (campoReg s.val ++ [')']))) '(' =
        (some (campoReg s.val ++ [')']), []) := by
      rw [List.nil_append, strtok_apos_delimitador,
        strtok_inteiro _ '(' (by rw [e0]; exact List.cons_ne_nil _ _) hall]
    rw [e]
    simp only [lerImediato, e0, scanInt_cifrao]
  · have t2 := strtok_campo meio ('(' :: (campoReg s.val ++ [')'])) '(' hm hp
      (Or.inr ⟨_, rfl⟩)
    simp only [t2, lerImediato, hscan]

/-! ## Well-formed lines -/

theorem mnemonico_bem_formado (m : List Char) (hm : m ∈ mnemonicos) : tokenBemFormado m := by
  simp only [mnemonicos, List.mem_cons, List.mem_singleton, List.not_mem_nil, or_false] at hm
  unfold tokenBemFormado
  rcases hm with rfl | rfl | rfl | rfl | rfl | rfl | rfl | rfl | rfl | rfl | rfl | rfl <;>
    decide

theorem mnemonicosR_sub (m : List Char) (f : Int) (h : (m, f) ∈ mnemonicosR) :
    m ∈ mnemonicos := by
  simp only [mnemonicosR, List.mem_cons, Prod.mk.injEq, List.mem_singleton, List.not_mem_nil,
    or_false] at h
  rcases h with ⟨rfl, _⟩ | ⟨rfl, _⟩ | ⟨rfl, _⟩ | ⟨rfl, _⟩ | ⟨rfl, _⟩ <;> decide

theorem mnemonicosI_sub (m : List Char) (op : Int) (h : (m, op) ∈ mnemonicosI) :
    m ∈ mnemonicos := by
  simp only [mnemonicosI, List.mem_cons, Prod.mk.injEq, List.mem_singleton, List.not_mem_nil,
    or_false] at h
  rcases h with ⟨rfl, _⟩ | ⟨rfl, _⟩ <;> decide

theorem mnemonicosMem_sub (m : List Char) (op : Int) (h : (m, op) ∈ mnemonicosMem) :
    m ∈ mnemonicos := by
  simp only [mnemonicosMem, List.mem_cons, Prod.mk.injEq, List.mem_singleton,
    List.not_mem_nil, or_false] at h
  rcases h with ⟨rfl, _⟩ | ⟨rfl, _⟩ <;> decide

theorem mnemonicosJ_sub (m : List Char) (op : Int) (h : (m, op) ∈ mnemonicosJ) :
    m ∈ mnemonicos := by
  simp only [mnemonicosJ, List.mem_cons, Prod.mk.injEq, List.mem_singleton, List.not_mem_nil,
    or_false] at h
  rcases h with ⟨rfl, _⟩ | ⟨rfl, _⟩ <;> decide

/-- An operand text that starts with a numeral or register operand, holds no line feed
and has at most 99 characters is returned unchanged by the first `sscanf`. -/
theorem operandos_de_campo (f resto : List Char) (hf : f ≠ [])
    (hfc : ∀ c ∈ f, c.isDigit = true ∨ c = '-' ∨ c = '$')
    (hnl : ∀ c ∈ resto, c ≠ '\n') (hlen : (f ++ resto).length ≤ 99) :
    operandosBemFormados (f ++ resto) := by
  obtain ⟨x, xs, rfl⟩ := List.exists_cons_of_ne_nil hf
  refine ⟨⟨x, xs ++ resto, rfl, (char_de_campo x (hfc x (List.mem_cons_self x xs))).2.2.2.2⟩,
    ?_, hlen⟩
  intro c hc
  rw [List.mem_append] at hc
  rcases hc with hc | hc
  · exact (char_de_campo c (hfc c hc)).2.2.2.1
  · exact hnl c hc

theorem campoReg_sem_nl (n : Int) : ∀ c ∈ campoReg n, c ≠ '\n' :=
  fun c hc => (char_de_campo c ((campoReg_chars n).2 c hc)).2.2.2.1

theorem decimal_sem_nl (n : Int) : ∀ c ∈ decimal n, c ≠ '\n' :=
  fun c hc => (char_de_campo c ((decimal_chars n).2 c hc)).2.2.2.1

theorem cons_sem_nl (x : Char) (l : List Char) (hx : x ≠ '\n') (hl : ∀ c ∈ l, c ≠ '\n') :
    ∀ c ∈ x :: l, c ≠ '\n' := by
  intro c hc
  rw [List.mem_cons] at hc
  rcases hc with rfl | hc
  · exact hx
  · exact hl c hc

theorem append_sem_nl (l1 l2 : List Char) (h1 : ∀ c ∈ l1, c ≠ '\n')
    (h2 : ∀ c ∈ l2, c ≠ '\n') : ∀ c ∈ l1 ++ l2, c ≠ '\n' := by
  intro c hc
  rw [List.mem_append] at hc
  rcases hc with hc | hc
  · exact h1 c hc
  · exact h2 c hc

theorem operandos_textoR (a b c : CInt) (suf : List Char) (hnl : ∀ ch ∈ suf, ch ≠ '\n')
    (hlen : suf.length ≤ 61) :
    operandosBemFormados (textoR a.val b.val c.val suf) := by
  have la := campoReg_comprimento a
  have lb := campoReg_comprimento b
  have lc := campoReg_comprimento c
  unfold textoR
  apply operandos_de_campo _ _ (campoReg_chars a.val).1 (campoReg_chars a.val).2
  · exact cons_sem_nl _ _ (by decide) (append_sem_nl _ _ (campoReg_sem_nl _)
      (cons_sem_nl _ _ (by decide) (append_sem_nl _ _ (campoReg_sem_nl _) hnl)))
  · simp only [List.length_append, List.length_cons]
    omega

theorem operandos_textoI (a b n : CInt) (suf : List Char) (hnl : ∀ ch ∈ suf, ch ≠ '\n')
    (hlen : suf.length ≤ 61) :
    operandosBemFormados (textoI a.val b.val n.val suf) := by
  have la := campoReg_comprimento a
  have lb := campoReg_comprimento b
  have ln := decimal_comprimento n
  unfold textoI
  apply operandos_de_campo _ _ (campoReg_chars a.val).1 (campoReg_chars a.val).2
  · exact cons_sem_nl _ _ (by decide) (append_sem_nl _ _ (campoReg_sem_nl _)
      (cons_sem_nl _ _ (by decide) (append_sem_nl _ _ (decimal_sem_nl _) hnl)))
  · simp only [List.length_append, List.length_cons]
    omega

theorem operandos_textoMem (a n b : CInt) (suf : List Char) (hnl : ∀ ch ∈ suf, ch ≠ '\n')
    (hlen : suf.length ≤ 61) :
    operandosBemFormados (textoMem a.val n.val b.val suf) := by
  have la := campoReg_comprimento a
  have lb := campoReg_comprimento b
  have ln := decimal_comprimento n
  unfold textoMem
  apply operandos_de_campo _ _ (campoReg_chars a.val).1 (campoReg_chars a.val).2
  · exact cons_sem_nl _ _ (by decide) (append_sem_nl _ _ (decimal_sem_nl _)
      (cons_sem_nl _ _ (by decide) (append_sem_nl _ _ (campoReg_sem_nl _) hnl)))
  · simp only [List.length_append, List.length_cons]
    omega

theorem operandos_campoReg (a : CInt) : operandosBemFormados (campoReg a.val) := by
  have la := campoReg_comprimento a
  have h := operandos_de_campo (campoReg a.val) [] (campoReg_chars a.val).1
    (campoReg_chars a.val).2 (fun c hc => absurd hc (List.not_mem_nil c))
    (by rw [List.append_nil]; omega)
  rw [List.append_nil] at h
  exact h

theorem operandos_decimal (n : CInt) : operandosBemFormados (decimal n.val) := by
  have ln := decimal_comprimento n
  have h := operandos_de_campo (decimal n.val) [] (decimal_chars n.val).1
    (decimal_chars n.val).2 (fun c hc => absurd hc (List.not_mem_nil c))
    (by rw [List.append_nil]; omega)
  rw [List.append_nil] at h
  exact h

theorem decodeInstrucao_R (m : List Char) (f : Int) (a b c : CInt) (suf : List Char)
    (inst0 : Instrucao) (hm : (m, f) ∈ mnemonicosR)
    (hs : suf = [] ∨ ∃ r, suf = ',' :: r) (hnl : ∀ ch ∈ suf, ch ≠ '\n')
    (hlen : suf.length ≤ 61) :
    decodeInstrucao (linha m (textoR a.val b.val c.val suf)) inst0 =
      some (if ¬ (0 ≤ a.val ∧ a.val ≤ 31) then (ERRO_REGISTRADOR, { instR f with rd := a })
        else if ¬ (0 ≤ b.val ∧ b.val ≤ 31) then
          (ERRO_REGISTRADOR, { instR f with rd := a, rs := b })
        else if ¬ (0 ≤ c.val ∧ c.val ≤ 31) then
          (ERRO_REGISTRADOR, { instR f with rd := a, rs := b, rt := c })
        else (SUCESSO, { instR f with rd := a, rs := b, rt := c })) := by
  have ho := operandos_textoR a b c suf hnl hlen
  rw [decodeInstrucao_linha m _ inst0 (mnemonico_bem_formado m (mnemonicosR_sub m f hm)) ho,
    decodeOperacao_R m f _ hm, decodeTipoR_textoR a b c suf _ hs ho.2.2]

theorem decodeInstrucao_I (m : List Char) (op : Int) (a b n : CInt) (suf : List Char)
    (inst0 : Instrucao) (hm : (m, op) ∈ mnemonicosI)
    (hs : suf = [] ∨ ∃ r, suf = ',' :: r) (hnl : ∀ ch ∈ suf, ch ≠ '\n')
    (hlen : suf.length ≤ 61) :
    decodeInstrucao (linha m (textoI a.val b.val n.val suf)) inst0 =
      some (if ¬ (0 ≤ a.val ∧ a.val ≤ 31) then (ERRO_REGISTRADOR, { instI op with rt := a })
        else if ¬ (0 ≤ b.val ∧ b.val ≤ 31) then
          (ERRO_REGISTRADOR, { instI op with rt := a, rs := b })
        else (SUCESSO, { instI op with rt := a, rs := b, imediato := n })) := by
  have ho := operandos_textoI a b n suf hnl hlen
  rw [decodeInstrucao_linha m _ inst0 (mnemonico_bem_formado m (mnemonicosI_sub m op hm)) ho,
    decodeOperacao_I m op _ hm, decodeTipoI_textoI a b n suf _ hs ho.2.2]

theorem decodeInstrucao_Mem (m : List Char) (op : Int) (a n b : CInt) (suf : List Char)
    (inst0 : Instrucao) (hm : (m, op) ∈ mnemonicosMem)
    (hs : suf = [] ∨ ∃ r, suf = ')' :: r) (hnl : ∀ ch ∈ suf, ch ≠ '\n')
    (hlen : suf.length ≤ 61) :
    decodeInstrucao (linha m (textoMem a.val n.val b.val suf)) inst0 =
      some (if ¬ (0 ≤ a.val ∧ a.val ≤ 31) then (ERRO_REGISTRADOR, { instI op with rt := a })
        else if ¬ (0 ≤ b.val ∧ b.val ≤ 31) then
          (ERRO_REGISTRADOR, { instI op with rt := a, imediato := n, rs := b })
        else (SUCESSO, { instI op with rt := a, imediato := n, rs := b })) := by
  have ho := operandos_textoMem a n b suf hnl hlen
  rw [decodeInstrucao_linha m _ inst0 (mnemonico_bem_formado m (mnemonicosMem_sub m op hm)) ho,
    decodeOperacao_Mem m op _ hm, decodeMemoria_textoMem a n b suf _ hs ho.2.2]

theorem decodeInstrucao_JR (a : CInt) (inst0 : Instrucao) :
    decodeInstrucao (linha M_JR (campoReg a.val)) inst0 =
      some (if ¬ (0 ≤ a.val ∧ a.val ≤ 31) then
          (ERRO_REGISTRADOR, { instR FUNC_JR with rs := a })
        else (SUCESSO, { instR FUNC_JR with rs := a })) := by
  rw [decodeInstrucao_linha M_JR _ inst0 (mnemonico_bem_formado M_JR (by decide))
    (operandos_campoReg a), decodeOperacao_JR, scanEspacoCifraoInt_campoReg]
  simp only
  by_cases hv : 0 ≤ a.val ∧ a.val ≤ 31
  · have := (validaRegistrador_iff a).mpr hv
    simp only [ne_eq, this, not_true_eq_false, if_false, hv, and_self]
  · have : ¬ validaRegistrador a = SUCESSO := fun h => hv ((validaRegistrador_iff a).mp h)
    simp only [ne_eq, this, not_false_eq_true, if_true, hv]

theorem decodeInstrucao_J (m : List Char) (op : Int) (n : CInt) (inst0 : Instrucao)
    (hm : (m, op) ∈ mnemonicosJ) :
    decodeInstrucao (linha m (decimal n.val)) inst0 =
      some (SUCESSO, { instJ op with endereco := n }) := by
  rw [decodeInstrucao_linha m _ inst0 (mnemonico_bem_formado m (mnemonicosJ_sub m op hm))
    (operandos_decimal n), decodeOperacao_J m op _ hm, scanInt_decimal]

/-! ## C16: decoding the canonical text -/

/-- C16. For register numbers d, s, t in 0..31 and any `int` n, `decodeInstrucao` applied
to the canonical text (`<m> $d,$s,$t` for m in add, sub, and, or, slt; `jr $s`;
`addi $t,$s,n` and `beq $t,$s,n`; `lw $t,n($s)` and `sw $t,n($s)`; `j n` and `jal n`;
numbers in decimal) returns success with exactly those values in rd, rs, rt, imediato
and endereco, the format tag of the mnemonic (R = 0, I = 1, J = 2), opcode 0 and the
function code 0x20, 0x22, 0x24, 0x25, 0x2A, 0x08 for the R format, the opcode 0x08,
0x04, 0x23, 0x2B, 0x02, 0x03 otherwise, and every other field equal to 0. -/
theorem C16_texto_canonico_decodifica (d s t n : CInt) (inst0 : Instrucao)
    (hd : 0 ≤ d.val ∧ d.val ≤ 31) (hs : 0 ≤ s.val ∧ s.val ≤ 31)
    (ht : 0 ≤ t.val ∧ t.val ≤ 31) :
    (∀ (m : List Char) (f : Int),
      (m, f) ∈ [(M_ADD, (0x20 : Int)), (M_SUB, 0x22), (M_AND, 0x24), (M_OR, 0x25),
        (M_SLT, 0x2A)] →
      decodeInstrucao (linha m (textoR d.val s.val t.val [])) inst0 =
        some (SUCESSO, mkInst 0 0 s t d (CInt.wrap f) 0 0)) ∧
    decodeInstrucao (linha M_JR (campoReg s.val)) inst0 =
      some (SUCESSO, mkInst 0 0 s 0 0 0x08 0 0) ∧
    (∀ (m : List Char) (op : Int), (m, op) ∈ [(M_ADDI, (0x08 : Int)), (M_BEQ, 0x04)] →
      decodeInstrucao (linha m (textoI t.val s.val n.val [])) inst0 =
        some (SUCESSO, mkInst 1 (CInt.wrap op) s t 0 0 n 0)) ∧
    (∀ (m : List Char) (op : Int), (m, op) ∈ [(M_LW, (0x23 : Int)), (M_SW, 0x2B)] →
      decodeInstrucao (linha m (textoMem t.val n.val s.val [')'])) inst0 =
        some (SUCESSO, mkInst 1 (CInt.wrap op) s t 0 0 n 0)) ∧
    (∀ (m : List Char) (op : Int), (m, op) ∈ [(M_J, (0x02 : Int)), (M_JAL, 0x03)] →
      decodeInstrucao (linha m (decimal n.val)) inst0 =
        some (SUCESSO, mkInst 2 (CInt.wrap op) 0 0 0 0 0 n)) := by
  have hnil : ∀ ch ∈ ([] : List Char), ch ≠ '\n' := fun c hc => absurd hc (List.not_mem_nil c)
  have hpar : ∀ ch ∈ [')'], ch ≠ '\n' := by decide
  refine ⟨?_, ?_, ?_, ?_, ?_⟩
  · intro m f hm
    have hm2 : (m, f) ∈ mnemonicosR := hm
    rw [decodeInstrucao_R m f d s t [] inst0 hm2 (Or.inl rfl) hnil (by decide),
      if_neg (not_not.mpr hd), if_neg (not_not.mpr hs), if_neg (not_not.mpr ht)]
    rfl
  · rw [decodeInstrucao_JR s inst0, if_neg (not_not.mpr hs)]
    rfl
  · intro m op hm
    have hm2 : (m, op) ∈ mnemonicosI := hm
    rw [decodeInstrucao_I m op t s n [] inst0 hm2 (Or.inl rfl) hnil (by decide),
      if_neg (not_not.mpr ht), if_neg (not_not.mpr hs)]
    rfl
  · intro m op hm
    have hm2 : (m, op) ∈ mnemonicosMem := hm
    rw [decodeInstrucao_Mem m op t n s [')'] inst0 hm2 (Or.inr ⟨[], rfl⟩) hpar (by decide),
      if_neg (not_not.mpr ht), if_neg (not_not.mpr hs)]
    rfl
  · intro m op hm
    have hm2 : (m, op) ∈ mnemonicosJ := hm
    rw [decodeInstrucao_J m op n inst0 hm2]
    rfl

/-! ## C17: a register out of range -/

/-- C17. For every register-taking mnemonic and its operand text in the required
syntax, with register numbers a, b, c and immediate n any `int` in decimal: when at
least one register number of the text is outside [0,31], `decodeInstrucao` returns
RegisterError, whichever position holds it. -/
theorem C17_registrador_fora_da_faixa (a b c n : CInt) (inst0 : Instrucao) :
    (¬ ((0 ≤ a.val ∧ a.val ≤ 31) ∧ (0 ≤ b.val ∧ b.val ≤ 31) ∧ (0 ≤ c.val ∧ c.val ≤ 31)) →
      ∀ (m : List Char) (f : Int), (m, f) ∈ mnemonicosR →
        (decodeInstrucao (linha m (textoR a.val b.val c.val [])) inst0).map Prod.fst =
          some ERRO_REGISTRADOR) ∧
    (¬ (0 ≤ a.val ∧ a.val ≤ 31) →
      (decodeInstrucao (linha M_JR (campoReg a.val)) inst0).map Prod.fst =
        some ERRO_REGISTRADOR) ∧
    (¬ ((0 ≤ a.val ∧ a.val ≤ 31) ∧ (0 ≤ b.val ∧ b.val ≤ 31)) →
      ∀ (m : List Char) (op : Int), (m, op) ∈ mnemonicosI →
        (decodeInstrucao (linha m (textoI a.val b.val n.val [])) inst0).map Prod.fst =
          some ERRO_REGISTRADOR) ∧
    (¬ ((0 ≤ a.val ∧ a.val ≤ 31) ∧ (0 ≤ b.val ∧ b.val ≤ 31)) →
      ∀ (m : List Char) (op : Int), (m, op) ∈ mnemonicosMem →
        (decodeInstrucao (linha m (textoMem a.val n.val b.val [')'])) inst0).map Prod.fst =
          some ERRO_REGISTRADOR) ∧
    ERRO_REGISTRADOR ≠ ERRO_PARAMETRO := by
  have hnil : ∀ ch ∈ ([] : List Char), ch ≠ '\n' := fun c hc => absurd hc (List.not_mem_nil c)
  have hpar : ∀ ch ∈ [')'], ch ≠ '\n' := by decide
  refine ⟨?_, ?_, ?_, ?_, by decide⟩
  · intro hbad m f hm
    rw [decodeInstrucao_R m f a b c [] inst0 hm (Or.inl rfl) hnil (by decide)]
    by_cases va : 0 ≤ a.val ∧ a.val ≤ 31
    · by_cases vb : 0 ≤ b.val ∧ b.val ≤ 31
      · have vc : ¬ (0 ≤ c.val ∧ c.val ≤ 31) := fun vc => hbad ⟨va, vb, vc⟩
        rw [if_neg (not_not.mpr va), if_neg (not_not.mpr vb), if_pos vc]
        rfl
      · rw [if_neg (not_not.mpr va), if_pos vb]
        rfl
    · rw [if_pos va]
      rfl
  · intro va
    rw [decodeInstrucao_JR a inst0, if_pos va]
    rfl
  · intro hbad m op hm
    rw [decodeInstrucao_I m op a b n [] inst0 hm (Or.inl rfl) hnil (by decide)]
    by_cases va : 0 ≤ a.val ∧ a.val ≤ 31
    · have vb : ¬ (0 ≤ b.val ∧ b.val ≤ 31) := fun vb => hbad ⟨va, vb⟩
      rw [if_neg (not_not.mpr va), if_pos vb]
      rfl
    · rw [if_pos va]
      rfl
  · intro hbad m op hm
    rw [decodeInstrucao_Mem m op a n b [')'] inst0 hm (Or.inr ⟨[], rfl⟩) hpar (by decide)]
    by_cases va : 0 ≤ a.val ∧ a.val ≤ 31
    · have vb : ¬ (0 ≤ b.val ∧ b.val ≤ 31) := fun vb => hbad ⟨va, vb⟩
      rw [if_neg (not_not.mpr va), if_pos vb]
      rfl
    · rw [if_pos va]
      rfl

/-- Instance of C16 at `add $1,$2,$3`. -/
theorem C16_texto_canonico_decodifica_witness :
    linha M_ADD (textoR 1 2 3 []) = linhaAdd123 ∧
    decodeInstrucao (linha M_ADD (textoR (1 : CInt).val (2 : CInt).val (3 : CInt).val []))
      instZero = some (SUCESSO, mkInst 0 0 2 3 1 (CInt.wrap 0x20) 0 0) ∧
    mkInst 0 0 2 3 1 (CInt.wrap 0x20) 0 0 = instAdd123 :=
  ⟨by decide,
    (C16_texto_canonico_decodifica 1 2 3 5 instZero (by decide) (by decide) (by decide)).1
      M_ADD 0x20 (by decide),
    by decide⟩

/-- Instance of C17 at `add $1,$40,$3`. -/
theorem C17_registrador_fora_da_faixa_witness :
    linha M_ADD (textoR 1 40 3 []) = linhaAddReg40 ∧
    (decodeInstrucao (linha M_ADD
      (textoR (1 : CInt).val (40 : CInt).val (3 : CInt).val [])) instZero).map Prod.fst =
        some ERRO_REGISTRADOR :=
  ⟨by decide,
    (C17_registrador_fora_da_faixa 1 40 3 0 instZero).1 (by decide) M_ADD FUNC_ADD
      (by decide)⟩

/-! ## C18: unknown mnemonic -/

theorem sscanfLinha_def (assembly : List Char) :
    sscanfLinha assembly =
      if primeiroToken assembly = [] then some ⟨-1, [], []⟩
      else if (primeiroToken assembly).length ≥ 10 then none
      else if parteOperandos assembly = [] then some ⟨1, primeiroToken assembly, []⟩
      else if (parteOperandos assembly).length ≥ MAX_INSTRUCAO_LEN then none
      else some ⟨2, primeiroToken assembly, parteOperandos assembly⟩ := rfl

/-- Whenever the first `sscanf` stays inside its arrays, a line whose first token is not
one of the twelve mnemonics, or that has no operand part, gives a parameter error. -/
theorem decodeInstrucao_sem_mnemonico (assembly : List Char) (inst0 : Instrucao)
    (r : Int × Instrucao) (h : decodeInstrucao assembly inst0 = some r)
    (hm : primeiroToken assembly ∉ mnemonicos ∨ parteOperandos assembly = []) :
    r.1 = ERRO_PARAMETRO := by
  unfold decodeInstrucao at h
  rw [sscanfLinha_def] at h
  have h12 : ¬ ((-1 : Int) = 2) := by decide
  have h22 : ¬ ((1 : Int) = 2) := by decide
  by_cases h1 : primeiroToken assembly = []
  · rw [if_pos h1] at h
    simp only [ne_eq, h12, not_false_eq_true, if_true, Option.some.injEq] at h
    rw [← h]
  · rw [if_neg h1] at h
    by_cases h2 : (primeiroToken assembly).length ≥ 10
    · rw [if_pos h2] at h
      exact absurd h (by simp)
    · rw [if_neg h2] at h
      by_cases h3 : parteOperandos assembly = []
      · rw [if_pos h3] at h
        simp only [ne_eq, h22, not_false_eq_true, if_true, Option.some.injEq] at h
        rw [← h]
      · rw [if_neg h3] at h
        by_cases h4 : (parteOperandos assembly).length ≥ MAX_INSTRUCAO_LEN
        · rw [if_pos h4] at h
          exact absurd h (by simp)
        · rw [if_neg h4] at h
          simp only [ne_eq, not_true_eq_false, if_false, Option.some.injEq] at h
          rcases hm with hm | hm
          · rw [← h, decodeOperacao_desconhecida _ _ hm]
          · exact absurd hm h3

/-- Every line on which the first `sscanf` stays inside its arrays (first token of at
most 9 characters, operand part of at most 99) and whose first token is not one of the
twelve mnemonics, or that has no operand part, returns a parameter error. -/
theorem decodeInstrucao_sem_mnemonico_retorna (assembly : List Char) (inst0 : Instrucao)
    (ht : (primeiroToken assembly).length ≤ 9) (ho : (parteOperandos assembly).length ≤ 99)
    (hm : primeiroToken assembly ∉ mnemonicos ∨ parteOperandos assembly = []) :
    ∃ inst, decodeInstrucao assembly inst0 = some (ERRO_PARAMETRO, inst) := by
  have h12 : ¬ ((-1 : Int) = 2) := by decide
  have h22 : ¬ ((1 : Int) = 2) := by decide
  have h2 : ¬ (primeiroToken assembly).length ≥ 10 := by omega
  have h4 : ¬ (parteOperandos assembly).length ≥ MAX_INSTRUCAO_LEN := by
    simp only [MAX_INSTRUCAO_LEN]; omega
  unfold decodeInstrucao
  rw [sscanfLinha_def]
  by_cases h1 : primeiroToken assembly = []
  · rw [if_pos h1]
    exact ⟨inst0, by simp only [ne_eq, h12, not_false_eq_true, if_true]⟩
  · rw [if_neg h1, if_neg h2]
    by_cases h3 : parteOperandos assembly = []
    · rw [if_pos h3]
      exact ⟨inst0, by simp only [ne_eq, h22, not_false_eq_true, if_true]⟩
    · rw [if_neg h3, if_neg h4]
      rcases hm with hm | hm
      · exact ⟨instZero, by
          simp only [ne_eq, not_true_eq_false, if_false, decodeOperacao_desconhecida _ _ hm]⟩
      · exact absurd hm h3

/-- C18. A first token of thirty characters: the line
`abcdefghijabcdefghijabcdefghij $1,$2,$3`, of 39 characters, has a first token of thirty
characters, which is none of the twelve mnemonics, and the operand part `$1,$2,$3`; `%s`
stores the thirty characters and the terminating zero, 31 bytes, in `char operacao[10]`,
21 bytes past the end of the array, so the call has no defined result and no parameter
error is returned, whereas the line `addx $1,$2,$3` gives a parameter error. -/
theorem C18_token_de_trinta_estoura_operacao :
    linhaTokenLongo.length = 39 ∧
    primeiroToken linhaTokenLongo = "abcdefghijabcdefghijabcdefghij".toList ∧
    (primeiroToken linhaTokenLongo).length = 30 ∧
    primeiroToken linhaTokenLongo ∉ mnemonicos ∧
    parteOperandos linhaTokenLongo = "$1,$2,$3".toList ∧
    decodeInstrucao linhaTokenLongo instZero = none ∧
    decodeInstrucao linhaAddx instZero = some (ERRO_PARAMETRO, instZero) := by
  decide

/-! ## C19: number of comma-separated fields -/

/-- C20 as stated fails: `lw $1,4($2`, without the closing parenthesis, is decoded as
`lw $1,4($2)`; and `lw $35($2)`, which is `lw $3,5($2)` without its comma, gives a
register error, not a parameter error. -/
theorem C20_sem_fecho_aceito_e_sem_virgula_registrador :
    decodeInstrucao linhaLwSemFecho instZero = some (SUCESSO, mkInst 1 0x23 2 1 0 0 4 0) ∧
    (decodeInstrucao linhaLwSemVirgula35 instZero).map Prod.fst = some ERRO_REGISTRADOR := by
  decide

/-- C20, amended. For lw and sw, with valid registers t, s and a decimal immediate n:
an operand text without comma is never decoded: it gives a parameter error when no
number is read after `$` or the number read is in [0,31], and a register error when the
number read after `$` is out of [0,31]; `$t,` followed by a text without `(` gives a
parameter error; `$t,`, a text without `(` in which `%d`
finds no number, and `($s)` give a parameter error; and `$t,n($s` without the closing
parenthesis is decoded as `$t,n($s)`. -/
theorem C20_sintaxe_de_lw_sw (t s n : CInt) (inst0 : Instrucao)
    (vt : 0 ≤ t.val ∧ t.val ≤ 31) (vs : 0 ≤ s.val ∧ s.val ≤ 31)
    (m : List Char) (op : Int) (hm : (m, op) ∈ mnemonicosMem) :
    (∀ operandos : List Char, operandosBemFormados operandos →
      (∀ ch ∈ operandos, ch ≠ ',') →
      ((decodeInstrucao (linha m operandos) inst0).map Prod.fst = some ERRO_PARAMETRO ∨
        (decodeInstrucao (linha m operandos) inst0).map Prod.fst = some ERRO_REGISTRADOR) ∧
      ((∀ x, scanEspacoCifraoInt operandos = some x → (0 ≤ x.val ∧ x.val ≤ 31)) →
        (decodeInstrucao (linha m operandos) inst0).map Prod.fst = some ERRO_PARAMETRO) ∧
      (∀ x, scanEspacoCifraoInt operandos = some x → ¬ (0 ≤ x.val ∧ x.val ≤ 31) →
        (decodeInstrucao (linha m operandos) inst0).map Prod.fst = some ERRO_REGISTRADOR)) ∧
    (∀ resto : List Char, operandosBemFormados (campoReg t.val ++ (',' :: resto)) →
      (∀ ch ∈ resto, ch ≠ '(') →
      (decodeInstrucao (linha m (campoReg t.val ++ (',' :: resto))) inst0).map Prod.fst =
        some ERRO_PARAMETRO) ∧
    (∀ meio : List Char,
      operandosBemFormados
        (campoReg t.val ++ (',' :: (meio ++ ('(' :: (campoReg s.val ++ [')']))))) →
      (∀ ch ∈ meio, ch ≠ '(') → scanInt meio = none →
      (decodeInstrucao (linha m
        (campoReg t.val ++ (',' :: (meio ++ ('(' :: (campoReg s.val ++ [')'])))))) inst0).map
          Prod.fst = some ERRO_PARAMETRO) ∧
    decodeInstrucao (linha m (textoMem t.val n.val s.val [])) inst0 =
      some (SUCESSO, mkInst 1 (CInt.wrap op) s t 0 0 n 0) ∧
    decodeInstrucao (linha m (textoMem t.val n.val s.val [])) inst0 =
      decodeInstrucao (linha m (textoMem t.val n.val s.val [')'])) inst0 := by
  have hmw := mnemonico_bem_formado m (mnemonicosMem_sub m op hm)
  have hnil : ∀ ch ∈ ([] : List Char), ch ≠ '\n' := fun c hc => absurd hc (List.not_mem_nil c)
  have hpar : ∀ ch ∈ [')'], ch ≠ '\n' := by decide
  have e4 : decodeInstrucao (linha m (textoMem t.val n.val s.val [])) inst0 =
      some (SUCESSO, mkInst 1 (CInt.wrap op) s t 0 0 n 0) := by
    rw [decodeInstrucao_Mem m op t n s [] inst0 hm (Or.inl rfl) hnil (by decide),
      if_neg (not_not.mpr vt), if_neg (not_not.mpr vs)]
    rfl
  refine ⟨?_, ?_, ?_, e4, ?_⟩
  · intro operandos ho hv
    have hne : operandos ≠ [] := by
      obtain ⟨⟨c0, r0, e, _⟩, _, _⟩ := ho
      rw [e]; exact List.cons_ne_nil _ _
    obtain ⟨h1, h2⟩ := decodeMemoria_sem_virgula operandos (instI op) hne ho.2.2 hv
    rw [decodeInstrucao_linha m _ inst0 hmw ho, decodeOperacao_Mem m op _ hm,
      Option.map_some']
    refine ⟨?_, fun hall => ?_, fun x hx hbad => ?_⟩
    · rcases h1 with h1 | h1
      · exact Or.inl (congrArg some h1)
      · exact Or.inr (congrArg some h1)
    · exact congrArg some (h2 hall)
    · exact congrArg some
        (decodeMemoria_sem_virgula_registrador operandos (instI op) hne ho.2.2 hv x hx hbad)
  · intro resto ho hp
    rw [decodeInstrucao_linha m _ inst0 hmw ho, decodeOperacao_Mem m op _ hm,
      Option.map_some', decodeMemoria_sem_parentese t resto _ vt ho.2.2 hp]
  · intro meio ho hp hscan
    rw [decodeInstrucao_linha m _ inst0 hmw ho, decodeOperacao_Mem m op _ hm,
      Option.map_some', decodeMemoria_sem_inteiro t s meio _ vt ho.2.2 hp hscan]
  · rw [e4, decodeInstrucao_Mem m op t n s [')'] inst0 hm (Or.inr ⟨[], rfl⟩) hpar (by decide),
      if_neg (not_not.mpr vt), if_neg (not_not.mpr vs)]
    rfl

/-- Instance of C20 (amended) at `lw $1,($2)`: no number between the comma and `(`,
parameter error; and at `lw $35($2)`: no comma and the register number 35 read after
`$`, register error. -/
theorem C20_sintaxe_de_lw_sw_witness :
    linha M_LW (campoReg 1 ++ (',' :: ([] ++ ('(' :: (campoReg 2 ++ [')']))))) =
      linhaLwSemInteiro ∧
    (decodeInstrucao (linha M_LW (campoReg (1 : CInt).val ++
      (',' :: ([] ++ ('(' :: (campoReg (2 : CInt).val ++ [')'])))))) instZero).map Prod.fst =
        some ERRO_PARAMETRO ∧
    linha M_LW operandosSemVirgula35 = linhaLwSemVirgula35 ∧
    scanEspacoCifraoInt operandosSemVirgula35 = some 35 ∧
    (decodeInstrucao (linha M_LW operandosSemVirgula35) instZero).map Prod.fst =
      some ERRO_REGISTRADOR :=
  ⟨by decide,
    (C20_sintaxe_de_lw_sw 1 2 4 instZero (by decide) (by decide) M_LW OP_LW
      (by decide)).2.2.1 []
      (by
        have h := operandos_de_campo (campoReg (1 : CInt).val)
          (',' :: ([] ++ ('(' :: (campoReg (2 : CInt).val ++ [')']))))
          (campoReg_chars _).1 (campoReg_chars _).2 (by decide) (by decide)
        exact h)
      (by decide) (by decide),
    by decide,
    by decide,
    ((C20_sintaxe_de_lw_sw 1 2 4 instZero (by decide) (by decide) M_LW OP_LW
      (by decide)).1 operandosSemVirgula35
      ⟨⟨'$', ['3', '5', '(', '$', '2', ')'], by decide, by decide⟩, by decide, by decide⟩
      (by decide)).2.2 35 (by decide) (by decide)⟩

/-! ## C21: the memory frame -/

/-- The memory after a call: unchanged, or, for a successful SW, changed at the word of
the accepted address only.  The registers are read after register 0 has been forced to
zero. -/
theorem executeInstrucao_memoria (proc : Processador) (inst : Instrucao) :
    (executeInstrucao proc inst).2.memoria = proc.memoria ∨
    (inst.tipo.val = INSTRUCAO_I ∧ inst.opcode.val = OP_SW ∧
      (executeInstrucao proc inst).1 = SUCESSO ∧
      validaEndereco (CInt.add ((proc.setReg 0 0).reg inst.rs) inst.imediato) = SUCESSO ∧
      (executeInstrucao proc inst).2.memoria =
        Function.update proc.memoria
          (memIdx (CInt.add ((proc.setReg 0 0).reg inst.rs) inst.imediato))
          ((proc.setReg 0 0).reg inst.rt)) := by
  unfold executeInstrucao
  dsimp only [executeTipoR, executeTipoI, executeTipoJ]
  split_ifs <;>
    simp_all [fimSucesso, Processador.setReg, Processador.setMem, Processador.setPc,
      Processador.avancaPc, Processador.reg]

/-- The value the executor reads from register `r` after forcing register 0 to zero. -/
theorem reg_apos_zerar (proc : Processador) (r : CInt) (h1 : 0 ≤ r.val) (h2 : r.val ≤ 31) :
    (proc.setReg 0 0).reg r = if r.val = 0 then 0 else proc.reg r := by
  simp only [Processador.reg, Processador.setReg, regIdx_zero, Function.update_apply]
  by_cases hr : r.val = 0
  · rw [if_pos ((regIdx_eq_zero_iff r h1 h2).mpr hr), if_pos hr]
  · rw [if_neg (fun h => hr ((regIdx_eq_zero_iff r h1 h2).mp h)), if_neg hr]

/-- C21. Memory frame. For every machine state and every instruction with register
fields in [0,31]: `executeInstrucao` leaves all 1024 memory words unchanged unless the
instruction is an SW that returns success; a successful SW changes at most the single
word at the index e = `registers[rs] + immediate`, the C sum of the register as the
executor reads it (register 0 reads 0) and the immediate, which lies in [0,1023]. The
register read is the value before the call whenever register 0 held 0, and e is the
exact sum whenever that sum lies in [0,1023]. -/
theorem C21_quadro_da_memoria (proc : Processador) (inst : Instrucao) (e : CInt)
    (hcampos : camposValidos inst)
    (he : e = CInt.add (if inst.rs.val = 0 then 0 else proc.reg inst.rs) inst.imediato) :
    ((¬ (inst.tipo.val = INSTRUCAO_I ∧ inst.opcode.val = OP_SW) ∨
        (executeInstrucao proc inst).1 ≠ SUCESSO) →
      (executeInstrucao proc inst).2.memoria = proc.memoria) ∧
    (inst.tipo.val = INSTRUCAO_I ∧ inst.opcode.val = OP_SW →
      (executeInstrucao proc inst).1 = SUCESSO →
      (0 ≤ e.val ∧ e.val ≤ 1023) ∧
      ∀ k : Fin 1024, (k.val : Int) ≠ e.val →
        (executeInstrucao proc inst).2.memoria k = proc.memoria k) ∧
    ((proc.registradores 0).val = 0 →
      (if inst.rs.val = 0 then 0 else proc.reg inst.rs) = proc.reg inst.rs) ∧
    ((proc.registradores 0).val = 0 →
      (0 ≤ (proc.reg inst.rs).val + inst.imediato.val ∧
        (proc.reg inst.rs).val + inst.imediato.val ≤ 1023) →
      e.val = (proc.reg inst.rs).val + inst.imediato.val) := by
  obtain ⟨hrs, _, _⟩ := hcampos
  have hreg := reg_apos_zerar proc inst.rs hrs.1 hrs.2
  have hlido : (proc.registradores 0).val = 0 →
      (if inst.rs.val = 0 then 0 else proc.reg inst.rs) = proc.reg inst.rs := by
    intro h0
    rw [← hreg, setReg_zero_eq_self proc h0]
  refine ⟨?_, ?_, hlido, ?_⟩
  · intro hn
    rcases executeInstrucao_memoria proc inst with h | ⟨ht, hop, hs, _, _⟩
    · exact h
    · rcases hn with hn | hn
      · exact absurd ⟨ht, hop⟩ hn
      · exact absurd hs hn
  · intro hsw hs
    rcases executeInstrucao_memoria proc inst with h | ⟨_, _, _, hval, hmem⟩
    · obtain ⟨hcod, hst⟩ : (executeInstrucao proc inst).1 = SUCESSO ∧
          validaEndereco (CInt.add ((proc.setReg 0 0).reg inst.rs) inst.imediato) = SUCESSO := by
        have h0 : ((proc.setReg 0 0).registradores 0).val = 0 := by
          rw [setReg_zero_reg0]; rfl
        refine ⟨hs, ?_⟩
        by_contra hv
        have hexec : executeInstrucao proc inst = (ERRO_MEMORIA, proc.setReg 0 0) := by
          unfold executeInstrucao
          have h1 : ¬ (INSTRUCAO_I = INSTRUCAO_R) := by decide
          have h2 : ¬ (OP_SW = OP_ADDI) := by decide
          have h3 : ¬ (OP_SW = OP_LW) := by decide
          simp only [hsw.1, hsw.2, executeTipoI, if_true, h1, h2, h3, if_false, ne_eq, hv,
            not_false_eq_true]
        rw [hexec] at hs
        have hm : ERRO_MEMORIA ≠ SUCESSO := by decide
        exact absurd hs hm
      rw [hreg, ← he] at hst
      exact ⟨(validaEndereco_iff e).mp hst, fun k _ => by rw [h]⟩
    · rw [hreg, ← he] at hval hmem
      have hr := (validaEndereco_iff e).mp hval
      refine ⟨hr, ?_⟩
      intro k hk
      rw [hmem]
      apply Function.update_noteq
      intro hke
      apply hk
      rw [hke]
      exact memIdx_val e hr.1 hr.2
  · intro h0 hin
    rw [he, hlido h0, CInt.add_val]
    omega

/-- Instance of C21 at `sw $1,4($0)` on a state whose registers all hold 7: the call
succeeds, the address is 4, and every word other than `memory[4]` is unchanged. -/
theorem C21_quadro_da_memoria_witness :
    camposValidos instSw1 ∧
    (instSw1.tipo.val = INSTRUCAO_I ∧ instSw1.opcode.val = OP_SW) ∧
    (executeInstrucao procSete instSw1).1 = SUCESSO ∧
    ((executeInstrucao procSete instSw1).2.memoria 4).val = 7 ∧
    (∀ k : Fin 1024, (k.val : Int) ≠ (4 : CInt).val →
      (executeInstrucao procSete instSw1).2.memoria k = procSete.memoria k) :=
  ⟨by decide, by decide, by decide, by decide,
    ((C21_quadro_da_memoria procSete instSw1 4 (by decide) (by decide)).2.1
      (by decide) (by decide)).2⟩

end Mips
